import Mathlib

set_option maxRecDepth 16384
set_option autoImplicit false

/-!
# OmniReadarr core — verification development

Shallow embedding of the core orchestration logic of OmniReadarr
(search aggregation, download lifecycle management, post-processing)
together with proofs about it.

Conventions of the embedding:
* Python strings are Lean `String`s; helpers (`pyStrip`, `collapseWs`,
  `replaceFirst`, …) mirror the exact Python primitives used by the code.
* Django rows become Lean structures; a table is a `List` of rows kept in
  insertion order; `filter(...).exists()`, `get(id=...)`, `save()` become
  `List.any`, `List.find?` and a keyed in-place update (`updateBy`).
* Remote collaborators (Prowlarr, SABnzbd, file discovery, the OPF
  generator, the cover downloader) are oracle functions returning
  `Except String _`; a Python exception is the `.error` case carrying
  `str(e)`.
* The filesystem is a flat association list from absolute path strings to
  entries (regular file with contents, or directory).  Hard links are not
  modelled, so `os.path.samefile p q` is path equality plus existence.
-/

namespace OmniReadarr

/-! ## Python string primitives -/

/-- Code points Python treats as whitespace for `str.strip()`, `str.isspace`
and the regex class `\s` on `str` patterns. -/
def pySpaceCodes : List Nat :=
  [0x09, 0x0a, 0x0b, 0x0c, 0x0d, 0x1c, 0x1d, 0x1e, 0x1f, 0x20, 0x85, 0xa0,
   0x1680, 0x2000, 0x2001, 0x2002, 0x2003, 0x2004, 0x2005, 0x2006, 0x2007,
   0x2008, 0x2009, 0x200a, 0x2028, 0x2029, 0x202f, 0x205f, 0x3000]

/-- Python whitespace test for a single character. -/
def isPySpace (c : Char) : Bool :=
  pySpaceCodes.contains c.toNat

/-- Strip characters satisfying `p` from both ends of a list. -/
def stripList (p : Char → Bool) (l : List Char) : List Char :=
  ((l.dropWhile p).reverse.dropWhile p).reverse

/-- Python `str.strip()` (no arguments: strips whitespace). -/
def pyStrip (s : String) : String :=
  ⟨stripList isPySpace s.data⟩

/-- Python `str.rstrip()` (no arguments). -/
def pyRStrip (s : String) : String :=
  ⟨(s.data.reverse.dropWhile isPySpace).reverse⟩

/-- Helper for `re.sub(r"\s+", " ", _)`: collapse each maximal run of
whitespace into a single space.  The `Bool` argument records whether the
previous character was part of a whitespace run. -/
def collapseWsAux : Bool → List Char → List Char
  | _, [] => []
  | prev, c :: rest =>
    if isPySpace c then
      if prev then collapseWsAux true rest
      else ' ' :: collapseWsAux true rest
    else c :: collapseWsAux false rest

/-- Sequence-prefix test (recursing on the pattern first, so that it
computes when only the pattern is concrete). -/
def listIsPrefixOf (l₁ l₂ : List Char) : Bool :=
  match l₁ with
  | [] => true
  | a :: as =>
    match l₂ with
    | [] => false
    | b :: bs => a == b && listIsPrefixOf as bs

/-- Python `str.replace(old, new, 1)` on character lists: replace the first
occurrence of `old` by `new`. -/
def listReplaceFirst (old new : List Char) : List Char → List Char
  | [] => if old.isEmpty then new else []
  | c :: rest =>
    if listIsPrefixOf old (c :: rest) then new ++ (c :: rest).drop old.length
    else c :: listReplaceFirst old new rest

/-- Python `str.replace(old, new, 1)`. -/
def replaceFirst (s old new : String) : String :=
  ⟨listReplaceFirst old.data new.data s.data⟩

/-- Python `s.startswith(p)` (as code-point prefix). -/
def strStartsWith (s p : String) : Bool :=
  listIsPrefixOf p.data s.data

/-- Python `s.endswith(p)` (as code-point suffix). -/
def strEndsWith (s p : String) : Bool :=
  listIsPrefixOf p.data.reverse s.data.reverse

/-- Python `str.lower()` (ASCII case folding; no queried string in scope
carries cased non-ASCII letters). -/
def strToLower (s : String) : String :=
  ⟨s.data.map Char.toLower⟩

/-- Python `str.split(sep)` for a one-character separator: split on every
occurrence, keeping empty pieces. -/
def splitChar (c0 : Char) (l : List Char) : List (List Char) :=
  l.foldr
    (fun c acc =>
      match acc with
      | [] => [[c]]
      | cur :: rest => if c == c0 then [] :: cur :: rest else (c :: cur) :: rest)
    [[]]

/-! ## `processing/utils/file_organizer.py` — `sanitize_filename` -/

/-- The character class `[<>:"/\\|?*]` of `sanitize_filename`. -/
def invalidFilenameChars : List Char :=
  ['<', '>', ':', '"', '/', '\\', '|', '?', '*']

/-- `re.sub(r'[<>:"/\\|?*]', "_", name)`. -/
def replaceInvalid (l : List Char) : List Char :=
  l.map fun c => if invalidFilenameChars.contains c then '_' else c

/-- The sanitization pipeline of `sanitize_filename` before the length
check: replace invalid characters, collapse whitespace runs, strip
whitespace, strip leading/trailing dots. -/
def sanitizeCore (name : String) : String :=
  ⟨stripList (· == '.') (stripList isPySpace (collapseWsAux false (replaceInvalid name.data)))⟩

/-- `sanitize_filename(name)` from `processing/utils/file_organizer.py`.
The `max_length` parameter defaults to 200 and no caller in the repository
overrides it, so it is fixed to 200 here. -/
def sanitize_filename (name : String) : String :=
  let sanitized := sanitizeCore name
  let sanitized :=
    if 200 < sanitized.length then
      ⟨((sanitized.data.take 200).reverse.dropWhile isPySpace).reverse⟩
    else sanitized
  if sanitized = "" then "Unknown" else sanitized

/-! ## Data model (`core/models.py`, `downloaders/models.py`) -/

/-- The two concrete media models (`Book`, `Audiobook`) sharing the
polymorphic attempt/blacklist tables; stands for the Django
`ContentType` of the row. -/
inductive MType
  | book
  | audiobook
deriving DecidableEq, Repr

/-- `core.models.MediaStatus`. -/
inductive MediaStatus
  | wanted
  | searching
  | downloading
  | downloaded
  | postProcessedFailed
  | postProcessedSuccess
  | archived
deriving DecidableEq, Repr

/-- `downloaders.models.DownloadAttemptStatus`. -/
inductive AttemptStatus
  | pending
  | sent
  | downloading
  | downloaded
  | failed
  | blacklisted
deriving DecidableEq, Repr

/-- The fields of `core.models.Media` (abstract base of `Book` and
`Audiobook`) that the core orchestration logic reads or writes.  `mtype`
tags which concrete model the row belongs to and `mid` models the UUID
primary key. -/
structure Media where
  mtype : MType
  mid : Nat
  title : String
  authors : List String
  status : MediaStatus
  cover_url : String
  library_path : String
  cover_path : String
deriving DecidableEq, Repr

/-- `indexers.prowlarr.results.SearchResult` (the `publish_date` datetime
is carried as its ISO string; it is never interpreted by the core). -/
structure SearchResult where
  guid : String
  title : String
  indexer : String
  indexer_id : Nat
  size : Option Int
  publish_date : Option String
  seeders : Option Nat
  peers : Option Nat
  protocol : String
  download_url : String
  info_url : Option String
deriving DecidableEq, Repr

/-- `downloaders.models.DownloadClientConfiguration`. -/
structure DownloadClientConfiguration where
  cfgId : Nat
  name : String
  client_type : String
  host : String
  port : Nat
  use_ssl : Bool
  api_key : String
  enabled : Bool
  priority : Int
deriving DecidableEq, Repr

/-- `downloaders.models.DownloadAttempt`.  `aid` models the UUID primary
key; `download_client` is the nullable foreign key by configuration id. -/
structure DownloadAttempt where
  aid : Nat
  content_type : MType
  object_id : Nat
  indexer : String
  indexer_id : String
  release_title : String
  download_url : String
  file_size : Option Int
  seeders : Option Nat
  leechers : Option Nat
  status : AttemptStatus
  error_type : String
  error_reason : String
  download_client : Option Nat
  download_client_download_id : String
  raw_file_path : String
  post_processed_file_path : String
  post_process_status : String
deriving DecidableEq, Repr

/-- `downloaders.models.DownloadBlacklist`; rows are unique on
`(content_type, object_id, indexer, indexer_id)`. -/
structure DownloadBlacklist where
  content_type : MType
  object_id : Nat
  indexer : String
  indexer_id : String
  release_title : String
  download_url : String
  reason : String
  reason_details : String
deriving DecidableEq, Repr

/-- `core.models_processing.ProcessingConfiguration` (the fields the
post-processing pipeline reads). -/
structure ProcessingConfiguration where
  enabled : Bool
  completed_downloads_path : String
  library_base_path : String
  calibre_ebook_convert_path : String
deriving DecidableEq, Repr

/-- The persistent store, one list per table, in insertion order.
`nextAttemptId` supplies the primary key of the next created attempt. -/
structure Db where
  medias : List Media
  attempts : List DownloadAttempt
  blacklist : List DownloadBlacklist
  configs : List DownloadClientConfiguration
  pconfigs : List ProcessingConfiguration
  nextAttemptId : Nat
deriving DecidableEq

/-! ## Generic keyed update (`row.save()`) -/

/-- Replace every element matching `p` by `v` (model of saving a mutated
row back by primary key). -/
def updateBy {α : Type} (p : α → Bool) (v : α) (l : List α) : List α :=
  l.map fun x => if p x then v else x

/-- `DownloadAttempt.objects.get(id=aid)`. -/
def findAttempt (db : Db) (aid : Nat) : Option DownloadAttempt :=
  db.attempts.find? (fun a => a.aid == aid)

/-- `attempt.save()`. -/
def saveAttempt (db : Db) (a : DownloadAttempt) : Db :=
  { db with attempts := updateBy (fun b => b.aid == a.aid) a db.attempts }

/-- Resolution of the generic foreign key `attempt.media`. -/
def findMedia (db : Db) (ct : MType) (oid : Nat) : Option Media :=
  db.medias.find? (fun m => m.mtype == ct && m.mid == oid)

/-- `media.save()` (full record). -/
def saveMedia (db : Db) (m : Media) : Db :=
  { db with medias := updateBy (fun x => x.mtype == m.mtype && x.mid == m.mid) m db.medias }

/-- `media.status = st; media.save(update_fields=["status"])`. -/
def saveMediaStatus (db : Db) (ct : MType) (oid : Nat) (st : MediaStatus) : Db :=
  { db with medias :=
      db.medias.map fun m =>
        if m.mtype == ct && m.mid == oid then { m with status := st } else m }

/-! ## `downloaders/services/search.py` — query building -/

/-- `SearchService._get_category_for_media`. -/
def get_category_for_media (media : Media) : Nat :=
  match media.mtype with
  | .audiobook => 3030
  | .book => 7020

/-- `SearchService._build_search_queries`: the query list is the stripped
title at priority 0 and nothing else. -/
def build_search_queries (media : Media) : List (String × Nat) :=
  [(pyStrip media.title, 0)]

/-! ## URL helpers for `DownloadService._resolve_download_url`

Minimal models of `urllib.parse.urlparse` / `parse_qs` sufficient for the
URLs the service handles; percent/plus decoding of query values is not
modelled (no caller-visible URL in scope contains an encoded `guid`
parameter). -/

/-- Everything after the first occurrence of `pat`, or `none` when `pat`
does not occur. -/
def listDropThrough (pat : List Char) : List Char → Option (List Char)
  | [] => if pat.isEmpty then some [] else none
  | c :: rest =>
    if listIsPrefixOf pat (c :: rest) then some ((c :: rest).drop pat.length)
    else listDropThrough pat rest

/-- Substring containment test (Python's `needle in haystack`). -/
def containsSub (haystack needle : String) : Bool :=
  (listDropThrough needle.data haystack.data).isSome

/-- `urlparse(u).netloc`: the part after `"//"` up to the next `/`, `?`
or `#` (empty when the URL has no `"//"`). -/
def urlNetloc (u : String) : String :=
  match listDropThrough ['/', '/'] u.data with
  | none => ""
  | some tail => ⟨tail.takeWhile (fun c => !(c == '/' || c == '?' || c == '#'))⟩

/-- `urlparse(u).query`: the part after the first `?` and before any `#`. -/
def urlQuery (u : String) : String :=
  match listDropThrough ['?'] (u.data.takeWhile (fun c => c != '#')) with
  | none => ""
  | some q => ⟨q⟩

/-- `parse_qs(q).get(key, [None])[0]`: the first value bound to `key`;
pairs without `=` and pairs with a blank value are dropped, as
`parse_qs` does by default. -/
def queryParamFirst (q key : String) : Option String :=
  let pairs := (splitChar '&' q.data).filterMap fun pair =>
    let name := pair.takeWhile (fun c => c != '=')
    if name.length == pair.length then none
    else
      let value := pair.drop (name.length + 1)
      if value.isEmpty then none else some (name, value)
  (pairs.find? (fun p => p.1 == key.data)).map (fun p => (⟨p.2⟩ : String))

/-! ## `downloaders/services/download.py` — `DownloadService` -/

/-- `downloaders.clients.results.JobStatus` (the float fields `progress`,
`mbleft`, `mb` are never read by the service and are omitted). -/
structure JobStatus where
  nzo_id : String
  filename : String
  status : String
  timeleft : String
  path : Option String
deriving DecidableEq, Repr

/-- The remote collaborators of `DownloadService`, as oracles:
`prowlarr` is `ProwlarrClient.get_download_url(indexer_id, guid)`,
`addDownload` is `SABnzbdClient.add_download(url, category, name)`
returning the optional `nzo_id` of the response, `getJobStatus` is
`SABnzbdClient.get_job_status(nzo_id)` and `deleteJob` is
`SABnzbdClient.delete_job(nzo_id)`.  An `.error` is a raised exception
carrying `str(e)`. -/
structure DownloadEnv where
  prowlarr : Nat → String → Except String String
  addDownload : String → String → String → Except String (Option String)
  getJobStatus : String → Except String (Option JobStatus)
  deleteJob : String → Except String Bool

/-- `filter(enabled=True, client_type="sabnzbd").order_by("priority").first()`:
the earliest row among those of minimal priority. -/
def firstByPriority : List DownloadClientConfiguration → Option DownloadClientConfiguration
  | [] => none
  | c :: rest =>
    match firstByPriority rest with
    | none => some c
    | some best => if c.priority ≤ best.priority then some c else some best

/-- The enabled SABnzbd configuration the service submits to. -/
def pickDownloadClientConfig (db : Db) : Option DownloadClientConfiguration :=
  firstByPriority (db.configs.filter fun c => c.enabled && c.client_type == "sabnzbd")

/-- `DownloadService._resolve_download_url`. -/
def resolve_download_url (env : DownloadEnv) (result : SearchResult) :
    Except String String :=
  let download_url := result.download_url
  let download_url :=
    if strStartsWith download_url "http://localhost" || strStartsWith download_url "https://localhost" then
      replaceFirst download_url "localhost" "prowlarr"
    else download_url
  if (strStartsWith download_url "http://" || strStartsWith download_url "https://") &&
      !(strStartsWith download_url "http://localhost" || strStartsWith download_url "https://localhost") then
    .ok download_url
  else if strStartsWith result.guid "http://" || strStartsWith result.guid "https://" then
    let guid_value := queryParamFirst (urlQuery result.guid) "guid"
    match guid_value with
    | some gv =>
      if containsSub (urlNetloc result.guid) "nzbgeek.info" then
        .ok ("https://nzbgeek.info/api?t=get&id=" ++ gv)
      else .ok result.guid
    | none => .ok result.guid
  else
    match env.prowlarr result.indexer_id result.guid with
    | .ok actual => .ok actual
    | .error e =>
      if strStartsWith result.guid "http://" || strStartsWith result.guid "https://" then
        .ok result.guid
      else
        .error ("Cannot determine download URL. download_url=" ++ result.download_url ++
                ", guid=" ++ result.guid ++ ", error=" ++ e)

/-- The body of the `try` block of `initiate_download` after the PENDING
attempt row exists: URL validation, URL resolution and submission to
SABnzbd.  Returns the optional `nzo_id` of the SABnzbd response. -/
def initiateInner (env : DownloadEnv) (media : Media) (result : SearchResult) :
    Except String (Option String) :=
  if pyStrip result.download_url == "" then
    .error "Download URL is missing from search result"
  else if result.protocol != "usenet" then
    .error ("SABnzbd only supports Usenet downloads (protocol: " ++ result.protocol ++ ")")
  else if !(strStartsWith result.download_url "http://" || strStartsWith result.download_url "https://") then
    .error ("Invalid download URL format: " ++ result.download_url)
  else
    match resolve_download_url env result with
    | .error e => .error e
    | .ok actual_download_url => env.addDownload actual_download_url "books" media.title

/-- The PENDING attempt row created by `initiate_download` before any
remote interaction. -/
def pendingAttempt (db : Db) (media : Media) (result : SearchResult)
    (cfg : DownloadClientConfiguration) : DownloadAttempt :=
  { aid := db.nextAttemptId
    content_type := media.mtype
    object_id := media.mid
    indexer := result.indexer
    indexer_id := toString result.indexer_id
    release_title := result.title
    download_url := result.download_url
    file_size := result.size
    seeders := result.seeders
    leechers := result.peers
    status := .pending
    error_type := ""
    error_reason := ""
    download_client := some cfg.cfgId
    download_client_download_id := ""
    raw_file_path := ""
    post_processed_file_path := ""
    post_process_status := "" }

/-- `DownloadService.initiate_download`. -/
def initiate_download (env : DownloadEnv) (db : Db) (media : Media)
    (result : SearchResult) : Db × Except String DownloadAttempt :=
  let hasActive := db.attempts.any fun a =>
    a.content_type == media.mtype && a.object_id == media.mid &&
      (a.status == .sent || a.status == .downloading)
  if hasActive then
    (db, .error "Media already has an active download. Please delete the existing download attempt first.")
  else
    match pickDownloadClientConfig db with
    | none => (db, .error "No enabled SABnzbd configuration found")
    | some cfg =>
      let attempt := pendingAttempt db media result cfg
      let db' := { db with attempts := db.attempts ++ [attempt],
                           nextAttemptId := db.nextAttemptId + 1 }
      match initiateInner env media result with
      | .ok nzo =>
        let attempt := { attempt with status := .downloading }
        let attempt :=
          match nzo with
          | some z => if z == "" then attempt else { attempt with download_client_download_id := z }
          | none => attempt
        let db' := saveAttempt db' attempt
        let db' := saveMediaStatus db' media.mtype media.mid .downloading
        (db', .ok attempt)
      | .error e =>
        let attempt := { attempt with status := .failed, error_type := "sabnzbd_error",
                                      error_reason := e }
        (saveAttempt db' attempt, .error ("Failed to initiate download: " ++ e))

/-- `DownloadService.get_download_status` (the status reconciler). -/
def get_download_status (env : DownloadEnv) (db : Db) (attemptId : Nat) :
    Db × Except String DownloadAttempt :=
  match findAttempt db attemptId with
  | none => (db, .error ("Download attempt " ++ toString attemptId ++ " not found"))
  | some attempt =>
    if attempt.download_client == none then (db, .ok attempt)
    else if attempt.download_client_download_id == "" then (db, .ok attempt)
    else
      match env.getJobStatus attempt.download_client_download_id with
      | .error e =>
        let attempt := { attempt with error_type := "status_check_error", error_reason := e }
        (saveAttempt db attempt, .ok attempt)
      | .ok none =>
        if attempt.status == .sent || attempt.status == .downloading then
          let attempt := { attempt with status := .failed, error_type := "not_found",
                                        error_reason := "Download not found in SABnzbd queue or history" }
          (saveAttempt db attempt, .ok attempt)
        else (db, .ok attempt)
      | .ok (some js) =>
        if js.status == "Completed" then
          if attempt.status != .downloaded then
            let attempt := { attempt with status := .downloaded, error_type := "",
                                          error_reason := "" }
            let attempt :=
              match js.path with
              | some p => if p == "" then attempt else { attempt with raw_file_path := p }
              | none => attempt
            let db := saveAttempt db attempt
            let db :=
              match findMedia db attempt.content_type attempt.object_id with
              | some _ => saveMediaStatus db attempt.content_type attempt.object_id .downloaded
              | none => db
            (db, .ok attempt)
          else (db, .ok attempt)
        else if js.status == "Downloading" || js.status == "Queued" || js.status == "Paused" then
          if attempt.status != .downloading then
            let attempt := { attempt with status := .downloading, error_type := "",
                                          error_reason := "" }
            let db := saveAttempt db attempt
            let db :=
              match findMedia db attempt.content_type attempt.object_id with
              | some m =>
                if m.status != .downloading then
                  saveMediaStatus db attempt.content_type attempt.object_id .downloading
                else db
              | none => db
            (db, .ok attempt)
          else (db, .ok attempt)
        else if js.status == "Failed" || js.status == "Deleted" then
          if attempt.status != .failed then
            let attempt := { attempt with status := .failed, error_type := "download_failed",
                                          error_reason := "SABnzbd status: " ++ js.status }
            (saveAttempt db attempt, .ok attempt)
          else (db, .ok attempt)
        else (db, .ok attempt)

/-- `DownloadService.mark_as_blacklisted`.  The content type is taken
from the attempt row, which equals `ContentType.objects.get_for_model(attempt.media)`
whenever the media row exists; when it does not, Python would raise out
of the `get_for_model` call, modelled by the error case. -/
def mark_as_blacklisted (db : Db) (attemptId : Nat) (reason : String)
    (reason_details : String) : Db × Except String Unit :=
  match findAttempt db attemptId with
  | none => (db, .error ("Download attempt " ++ toString attemptId ++ " not found"))
  | some attempt =>
    match findMedia db attempt.content_type attempt.object_id with
    | none => (db, .error "ContentType lookup failed: attempt.media is None")
    | some _ =>
      let entryExists := db.blacklist.any fun b =>
        b.content_type == attempt.content_type && b.object_id == attempt.object_id &&
          b.indexer == attempt.indexer && b.indexer_id == attempt.indexer_id
      let db :=
        if entryExists then db
        else { db with blacklist := db.blacklist ++
          [{ content_type := attempt.content_type
             object_id := attempt.object_id
             indexer := attempt.indexer
             indexer_id := attempt.indexer_id
             release_title := attempt.release_title
             download_url := attempt.download_url
             reason := reason
             reason_details := reason_details }] }
      let attempt := { attempt with status := .blacklisted }
      (saveAttempt db attempt, .ok ())

/-! ## Filesystem model

A flat association list from absolute path strings to entries.  Writes
update every entry with the written key in place (or append a fresh
entry); `os.remove` drops all entries with the key.  Hard links are not
modelled, so `os.path.samefile p q` is path equality plus existence, and
the intermediate directories `os.makedirs` would create are not tracked
individually — only the leaf directory is recorded. -/

inductive FsEntry
  | file (content : String)
  | dir
deriving DecidableEq, Repr

structure Fs where
  entries : List (String × FsEntry)
deriving DecidableEq

def Fs.lookup (fs : Fs) (p : String) : Option FsEntry :=
  (fs.entries.find? (fun e => e.1 == p)).map (fun e => e.2)

/-- `os.path.exists(p)`. -/
def Fs.existsPath (fs : Fs) (p : String) : Bool :=
  (fs.lookup p).isSome

/-- `os.path.isfile(p)`. -/
def Fs.isFile (fs : Fs) (p : String) : Bool :=
  match fs.lookup p with
  | some (.file _) => true
  | _ => false

/-- `os.path.isdir(p)`. -/
def Fs.isDir (fs : Fs) (p : String) : Bool :=
  match fs.lookup p with
  | some .dir => true
  | _ => false

/-- Write a regular file at `p` (used for `shutil.copy2` targets, the OPF
sidecar and the cover download). -/
def Fs.write (fs : Fs) (p : String) (content : String) : Fs :=
  if fs.entries.any (fun e => e.1 == p) then
    ⟨updateBy (fun e => e.1 == p) (p, .file content) fs.entries⟩
  else ⟨fs.entries ++ [(p, .file content)]⟩

/-- `os.makedirs(p, exist_ok=True)`: a no-op when `p` is already a
directory, an `OSError` when `p` is an existing regular file. -/
def Fs.mkdirs (fs : Fs) (p : String) : Except String Fs :=
  match fs.lookup p with
  | some .dir => .ok fs
  | some (.file _) => .error ("FileExistsError: " ++ p)
  | none => .ok ⟨fs.entries ++ [(p, .dir)]⟩

/-- `os.remove(p)` (the modelled filesystem never fails the removal of an
existing regular file; the service's `except` arm for OS-level removal
failures is therefore unreachable in the model). -/
def Fs.remove (fs : Fs) (p : String) : Fs :=
  ⟨fs.entries.filter (fun e => e.1 != p)⟩

/-- `os.path.samefile(p, q)` under the no-hard-links assumption. -/
def Fs.samefile (fs : Fs) (p q : String) : Bool :=
  p == q && fs.existsPath p

/-! ## `DownloadService.delete_download_attempt` -/

/-- The remote-cancellation step of `delete_download_attempt` (run only
for an active attempt with a client reference and a job id): the
advisory messages it contributes. -/
def cancelRemoteJobMessages (env : DownloadEnv) (attempt : DownloadAttempt) : List String :=
  if attempt.download_client.isSome && attempt.download_client_download_id != "" then
    match env.deleteJob attempt.download_client_download_id with
    | .ok true => ["Download removed from SABnzbd"]
    | .ok false => ["Warning: Could not remove download from SABnzbd"]
    | .error e => ["Warning: Error removing download from SABnzbd: " ++ e]
  else []

/-- One local-file cleanup step of `delete_download_attempt`: remove
`path` when it is a nonempty path to a regular file, contributing `msg`. -/
def removeLocalFile (fs : Fs) (path msg : String) : Fs × List String :=
  if path != "" then
    if fs.isFile path then (fs.remove path, [msg]) else (fs, [])
  else (fs, [])

/-- `DownloadService.delete_download_attempt`.  Returns the new store,
the new filesystem and — mirroring the `{"success": True, "messages": ...}`
payload — the success flag with the collected advisory messages. -/
def delete_download_attempt (env : DownloadEnv) (db : Db) (fs : Fs)
    (attemptId : Nat) : Db × Fs × Except String (Bool × List String) :=
  match findAttempt db attemptId with
  | none => (db, fs, .error ("Download attempt " ++ toString attemptId ++ " not found"))
  | some attempt =>
    let wasActive := attempt.status == .sent || attempt.status == .downloading
    let messages := if wasActive then cancelRemoteJobMessages env attempt else []
    let rawStep := removeLocalFile fs attempt.raw_file_path "Raw file deleted"
    let postStep := removeLocalFile rawStep.1 attempt.post_processed_file_path
      "Post-processed file deleted"
    let fs := postStep.1
    let messages := messages ++ rawStep.2 ++ postStep.2
    let mediaOpt := findMedia db attempt.content_type attempt.object_id
    let db := { db with attempts := db.attempts.filter (fun a => a.aid != attemptId) }
    let final :=
      if wasActive then
        match mediaOpt with
        | some _ =>
          let hasOther := db.attempts.any fun a =>
            a.content_type == attempt.content_type && a.object_id == attempt.object_id &&
              (a.status == .downloaded || a.status == .downloading || a.status == .sent)
          if !hasOther then
            (saveMediaStatus db attempt.content_type attempt.object_id .wanted,
             messages ++ ["Media status reset to WANTED"])
          else (db, messages)
        | none => (db, messages)
      else (db, messages)
    (final.1, fs, .ok (true, final.2))

/-! ## `downloaders/services/search.py` — the aggregation pipeline -/

/-- `SearchService._deduplicate_results`: keep the first occurrence of
each guid.  `seen` is the accumulated `seen_guids` set. -/
def dedupAux (seen : List String) : List (SearchResult × Nat) → List (SearchResult × Nat)
  | [] => []
  | (r, p) :: rest =>
    if seen.contains r.guid then dedupAux seen rest
    else (r, p) :: dedupAux (r.guid :: seen) rest

def deduplicate_results (results : List (SearchResult × Nat)) : List (SearchResult × Nat) :=
  dedupAux [] results

/-- `SearchService.is_blacklisted`. -/
def is_blacklisted (blacklist : List DownloadBlacklist) (media : Media)
    (release : SearchResult) : Bool :=
  blacklist.any fun b =>
    b.content_type == media.mtype && b.object_id == media.mid &&
      b.indexer == release.indexer && b.indexer_id == toString release.indexer_id

/-- `SearchService._filter_blacklisted`. -/
def filter_blacklisted (blacklist : List DownloadBlacklist) (media : Media)
    (results : List (SearchResult × Nat)) : List (SearchResult × Nat) :=
  results.filter fun rp => !is_blacklisted blacklist media rp.1

/-- The key `lambda x: (x[1], x[0].indexer.lower(), x[0].title.lower())`
of `_sort_results`, compared lexicographically and strictly. -/
def resultKeyLt (a b : SearchResult × Nat) : Bool :=
  decide (a.2 < b.2) ||
    (a.2 == b.2 &&
      (decide (strToLower a.1.indexer < strToLower b.1.indexer) ||
        (strToLower a.1.indexer == strToLower b.1.indexer &&
          decide (strToLower a.1.title < strToLower b.1.title))))

/-- Stable insertion used to model Python's stable `sorted`: `x` goes in
front of the first element it is strictly below, hence after every
element with an equal key. -/
def insertKeepLeft {α : Type} (lt : α → α → Bool) (x : α) : List α → List α
  | [] => [x]
  | y :: ys => if lt x y then x :: y :: ys else y :: insertKeepLeft lt x ys

/-- Python's `sorted` with a strict key comparison. -/
def stableSort {α : Type} (lt : α → α → Bool) (l : List α) : List α :=
  l.foldl (fun acc x => insertKeepLeft lt x acc) []

/-- `SearchService._sort_results`. -/
def sort_results (results : List (SearchResult × Nat)) : List SearchResult :=
  (stableSort resultKeyLt results).map (fun rp => rp.1)

/-- `SearchService.search_for_media`.  `search` is the Prowlarr search
oracle `(query, category, limit) ↦ results`; a failing query is
swallowed, as in the service. -/
def search_for_media (search : String → Nat → Nat → Except String (List SearchResult))
    (blacklist : List DownloadBlacklist) (media : Media) : List SearchResult :=
  let queries := build_search_queries media
  let category := get_category_for_media media
  let all_results := queries.foldl
    (fun acc qp =>
      match search qp.1 category 50 with
      | .ok results => acc ++ results.map (fun r => (r, qp.2))
      | .error _ => acc)
    ([] : List (SearchResult × Nat))
  let deduplicated := deduplicate_results all_results
  let filtered := filter_blacklisted blacklist media deduplicated
  let sorted_results := sort_results filtered
  sorted_results.take 50

/-! ## Path helpers (`os.path` / `pathlib` on POSIX paths)

The paths the pipeline builds never carry a trailing slash, which is the
only simplification these helpers make relative to `pathlib`. -/

/-- `os.path.join(a, b)` for POSIX paths. -/
def pathJoin (a b : String) : String :=
  if strStartsWith b "/" then b
  else if a == "" then b
  else if strEndsWith a "/" then a ++ b
  else a ++ "/" ++ b

/-- `Path(p).name`: the component after the last `/`. -/
def pathBasename (p : String) : String :=
  ⟨(p.data.reverse.takeWhile (fun c => c != '/')).reverse⟩

/-- `PurePath` suffix computation on a bare file name: `name[i:]` for the
last `.` at index `i` when `0 < i < len(name) - 1`, else `""`. -/
def suffixOfName (name : String) : String :=
  let rev := name.data.reverse
  let tail := rev.takeWhile (fun c => c != '.')
  if 0 < tail.length then
    if tail.length + 1 < rev.length then ⟨'.' :: tail.reverse⟩ else ""
  else ""

/-- `Path(p).suffix`. -/
def pathSuffix (p : String) : String :=
  suffixOfName (pathBasename p)

/-- `Path(p).stem`: the name with its suffix removed. -/
def pathStem (p : String) : String :=
  let name := pathBasename p
  ⟨name.data.take (name.data.length - (suffixOfName name).data.length)⟩

/-- `Path(p).parent` (as a string): the part before the last `/`, `"."`
when there is no `/`, `"/"` when the last `/` is leading. -/
def pathParent (p : String) : String :=
  let rev := p.data.reverse
  let tail := rev.takeWhile (fun c => c != '/')
  if tail.length == rev.length then "."
  else
    let remaining := rev.drop (tail.length + 1)
    if remaining.isEmpty then "/" else ⟨remaining.reverse⟩

/-! ## `processing/utils/file_organizer.py` — organization -/

/-- Error channel of the organizer: `organizer e` is a raised
`FileOrganizerError`, `os e` any other `OSError`-style exception (which
the post-processing service does not catch). -/
inductive OrgError
  | organizer (msg : String)
  | os (msg : String)
deriving DecidableEq, Repr

/-- `get_library_path(library_base_path, author, book_title)`. -/
def get_library_path (library_base_path author book_title : String) : String × String :=
  let sanitized_author := if author != "" then sanitize_filename author else "Unknown Author"
  let sanitized_title := if book_title != "" then sanitize_filename book_title else "Unknown Title"
  (pathJoin (pathJoin library_base_path sanitized_author) sanitized_title, sanitized_title)

/-- `organize_to_library(source_file_path, library_base_path, author, book_title)`. -/
def organize_to_library (fs : Fs) (source_file_path library_base_path author book_title : String) :
    Fs × Except OrgError String :=
  if !fs.existsPath source_file_path then
    (fs, .error (.organizer ("Source file does not exist: " ++ source_file_path)))
  else if !fs.existsPath library_base_path then
    (fs, .error (.organizer ("Library base path does not exist: " ++ library_base_path)))
  else
    let ldir := get_library_path library_base_path author book_title
    match fs.mkdirs ldir.1 with
    | .error e => (fs, .error (.os e))
    | .ok fs =>
      let source_ext := pathSuffix source_file_path
      let dest_filename := ldir.2 ++ source_ext
      let dest_path := pathJoin ldir.1 dest_filename
      if fs.existsPath dest_path && fs.samefile source_file_path dest_path then
        (fs, .ok dest_path)
      else
        match fs.lookup source_file_path with
        | some (.file c) => (fs.write dest_path c, .ok dest_path)
        | _ => (fs, .error (.os ("copy2: source is not a regular file: " ++ source_file_path)))

/-- The recognized audio extensions of `organize_directory_to_library`. -/
def audio_extensions : List String :=
  [".mp3", ".m4a", ".m4b", ".flac", ".ogg", ".wav", ".aac", ".opus"]

/-- One copy step of the walk in `organize_directory_to_library`. -/
def copyAudioStep (library_dir : String) (acc : Fs × Nat) (e : String × FsEntry) : Fs × Nat :=
  match e.2 with
  | .dir => acc
  | .file c =>
    let fs := acc.1
    let dest_file := pathJoin library_dir (pathBasename e.1)
    if fs.existsPath dest_file && fs.samefile e.1 dest_file then acc
    else (fs.write dest_file c, acc.2 + 1)

/-- `organize_directory_to_library`.  The `os.walk` is modelled as one
pass over the snapshot of the regular files strictly below
`source_dir_path`, in store order. -/
def organize_directory_to_library (fs : Fs)
    (source_dir_path library_base_path author book_title : String) :
    Fs × Except OrgError String :=
  if !fs.existsPath source_dir_path then
    (fs, .error (.organizer ("Source directory does not exist: " ++ source_dir_path)))
  else if !fs.isDir source_dir_path then
    (fs, .error (.organizer ("Source path is not a directory: " ++ source_dir_path)))
  else if !fs.existsPath library_base_path then
    (fs, .error (.organizer ("Library base path does not exist: " ++ library_base_path)))
  else
    let ldir := get_library_path library_base_path author book_title
    match fs.mkdirs ldir.1 with
    | .error e => (fs, .error (.os e))
    | .ok fs =>
      let candidates := fs.entries.filter fun e =>
        strStartsWith e.1 (source_dir_path ++ "/") &&
          audio_extensions.any (fun ext => strEndsWith (strToLower (pathBasename e.1)) ext)
      let out := candidates.foldl (copyAudioStep ldir.1) (fs, 0)
      if out.2 == 0 then
        (out.1, .error (.organizer ("No audio files found in source directory: " ++ source_dir_path)))
      else (out.1, .ok ldir.1)

/-! ## `processing/services/post_process.py` — organization stage -/

/-- The `{"success": ..., "message"/"error": ...}` payload of the
post-processing service operations, with a separate case for an
exception the service does not catch. -/
inductive ServiceResult
  | success (message : String)
  | failure (error : String)
  | raised (exc : String)
deriving DecidableEq, Repr

/-- The collaborators of the organization stage, as oracles:
`findDownloadedFile` is `processing.utils.file_discovery.find_downloaded_file`
(its `FileDiscoveryError` is the error case), `generateOpf` produces the
OPF sidecar contents for a media item (any exception is the error case),
`downloadCover` fetches the cover bytes for a URL (a `CoverDownloadError`
is the error case). -/
structure ProcessEnv where
  findDownloadedFile : String → String → String → Fs → Except String String
  generateOpf : Media → Except String String
  downloadCover : String → Except String String

/-- `media.authors[0] if media.authors else "Unknown Author"`. -/
def orgAuthor (media : Media) : String :=
  match media.authors with
  | a :: _ => a
  | [] => "Unknown Author"

/-- The best-effort OPF sidecar step: write the generated contents at
`opf_path`, or log-and-skip when `generate_opf` raises. -/
def writeOpfSidecar (env : ProcessEnv) (media : Media) (opf_path : String) (fs : Fs) : Fs :=
  match env.generateOpf media with
  | .ok content => fs.write opf_path content
  | .error _ => fs

/-- The best-effort cover step: download the cover to
`cover_output_path`, or log-and-skip on `CoverDownloadError`. -/
def downloadCoverStep (env : ProcessEnv) (media : Media) (cover_output_path : String)
    (fs : Fs) : Fs × Option String :=
  match env.downloadCover media.cover_url with
  | .ok content => (fs.write cover_output_path content, some cover_output_path)
  | .error _ => (fs, none)

/-- `organize_to_library_for_attempt(attempt_id)`. -/
def organize_to_library_for_attempt (env : ProcessEnv) (db : Db) (fs : Fs)
    (attemptId : Nat) : Db × Fs × ServiceResult :=
  match findAttempt db attemptId with
  | none => (db, fs, .failure ("Download attempt " ++ toString attemptId ++ " not found"))
  | some attempt =>
    match findMedia db attempt.content_type attempt.object_id with
    | none => (db, fs, .failure "Media not found for download attempt")
    | some media =>
      match db.pconfigs.find? (fun c => c.enabled) with
      | none => (db, fs, .failure "No enabled processing configuration found")
      | some config =>
        let chosen : Except String (Db × DownloadAttempt × String) :=
          if attempt.post_processed_file_path != "" &&
              fs.existsPath attempt.post_processed_file_path then
            .ok (db, attempt, attempt.post_processed_file_path)
          else if attempt.raw_file_path != "" && fs.existsPath attempt.raw_file_path then
            .ok (db, attempt, attempt.raw_file_path)
          else
            match env.findDownloadedFile config.completed_downloads_path
                attempt.release_title attempt.download_client_download_id fs with
            | .ok p =>
              let attempt := { attempt with raw_file_path := p }
              .ok (saveAttempt db attempt, attempt, p)
            | .error e => .error e
        match chosen with
        | .error e => (db, fs, .failure e)
        | .ok (db, attempt, file_to_organize) =>
          let author := orgAuthor media
          let org :=
            if fs.isDir file_to_organize then
              organize_directory_to_library fs file_to_organize config.library_base_path
                author media.title
            else
              organize_to_library fs file_to_organize config.library_base_path
                author media.title
          match org.2 with
          | .error (.organizer e) => (db, org.1, .failure e)
          | .error (.os e) => (db, org.1, .raised e)
          | .ok library_file_path =>
            let fs := org.1
            let sanitized_title := pathStem library_file_path
            let library_dir := pathParent library_file_path
            let opf_path := pathJoin library_dir (sanitized_title ++ ".opf")
            let fs := writeOpfSidecar env media opf_path fs
            let coverStep : Fs × Option String :=
              if media.cover_url != "" then
                downloadCoverStep env media (pathJoin library_dir (sanitized_title ++ ".jpg")) fs
              else (fs, none)
            let fs := coverStep.1
            let media := { media with library_path := library_file_path }
            let media :=
              match coverStep.2 with
              | some cp => { media with cover_path := cp }
              | none => media
            let db := saveMedia db media
            let attempt := { attempt with post_processed_file_path := library_file_path }
            let db := saveAttempt db attempt
            (db, fs, .success ("Successfully organized to library: " ++ library_file_path))

/-! ## Generic lemmas about the store operations -/

theorem updateBy_cons {α : Type} (p : α → Bool) (v y : α) (ys : List α) :
    updateBy p v (y :: ys) = (if p y then v else y) :: updateBy p v ys := rfl

theorem updateBy_eq_self_of_none {α : Type} (p : α → Bool) (v : α) (l : List α)
    (h : ∀ x ∈ l, p x = false) : updateBy p v l = l := by
  induction l with
  | nil => rfl
  | cons y ys ih =>
    rw [updateBy_cons, if_neg, ih]
    · intro x hx
      exact h x (List.mem_cons_of_mem _ hx)
    · simp [h y (List.mem_cons_self _ _)]

theorem updateBy_eq_self {α : Type} (p : α → Bool) (v : α) (l : List α)
    (h : ∀ x ∈ l, p x = true → x = v) : updateBy p v l = l := by
  induction l with
  | nil => rfl
  | cons y ys ih =>
    rw [updateBy_cons]
    have hrest : updateBy p v ys = ys :=
      ih fun x hx => h x (List.mem_cons_of_mem _ hx)
    by_cases hy : p y = true
    · rw [if_pos hy, hrest, h y (List.mem_cons_self _ _) hy]
    · rw [if_neg (by simp [hy]), hrest]

theorem find?_updateBy_self {α : Type} (p : α → Bool) (v : α) (l : List α) (x : α)
    (hfind : l.find? p = some x) (hv : p v = true) :
    (updateBy p v l).find? p = some v := by
  induction l with
  | nil => simp at hfind
  | cons y ys ih =>
    rw [updateBy_cons]
    by_cases hy : p y = true
    · rw [if_pos hy]
      exact List.find?_cons_of_pos _ hv
    · rw [if_neg (by simp [hy])]
      rw [List.find?_cons_of_neg _ hy] at hfind
      rw [List.find?_cons_of_neg _ hy]
      exact ih hfind

theorem forall_mem_updateBy {α : Type} (p : α → Bool) (v : α) (l : List α)
    (x : α) (hx : x ∈ updateBy p v l) :
    p x = true → x = v := by
  rw [updateBy, List.mem_map] at hx
  obtain ⟨y, hy, hyx⟩ := hx
  by_cases hpy : p y = true
  · rw [if_pos hpy] at hyx
    intro _
    exact hyx.symm
  · rw [if_neg (by simp [hpy])] at hyx
    subst hyx
    intro hpx
    exact absurd hpx hpy

theorem updateBy_append_single {α : Type} (p : α → Bool) (v x : α) (l : List α)
    (hl : ∀ y ∈ l, p y = false) (hx : p x = true) :
    updateBy p v (l ++ [x]) = l ++ [v] := by
  have h1 := updateBy_eq_self_of_none p v l hl
  rw [updateBy] at h1
  rw [updateBy, List.map_append, h1]
  simp [hx]

/-- An attempt found by id, saved back mutated (same id), is found as the
mutated row. -/
theorem findAttempt_saveAttempt (db : Db) (aid : Nat) (a a' : DownloadAttempt)
    (hfind : findAttempt db aid = some a) (haid : a'.aid = a.aid) :
    findAttempt (saveAttempt db a') aid = some a' := by
  unfold findAttempt at hfind
  have hpa := List.find?_some hfind
  have haid' : a'.aid = aid := by
    rw [haid]
    exact Nat.eq_of_beq_eq_true (by simpa using hpa)
  unfold findAttempt saveAttempt
  simp only [haid']
  exact find?_updateBy_self _ _ _ a hfind (by simp [haid'])

/-- `saveAttempt` does not touch the media table. -/
theorem medias_saveAttempt (db : Db) (a : DownloadAttempt) :
    (saveAttempt db a).medias = db.medias := rfl

/-- `saveMediaStatus` does not touch the attempts table. -/
theorem attempts_saveMediaStatus (db : Db) (ct : MType) (oid : Nat) (st : MediaStatus) :
    (saveMediaStatus db ct oid st).attempts = db.attempts := rfl

/-- List-level core of `findMedia_saveMediaStatus`. -/
theorem find?_mapStatus (ct : MType) (oid : Nat) (st : MediaStatus)
    (l : List Media) (m : Media)
    (hfind : l.find? (fun m => m.mtype == ct && m.mid == oid) = some m) :
    (l.map fun x => if x.mtype == ct && x.mid == oid then { x with status := st } else x).find?
      (fun m => m.mtype == ct && m.mid == oid) = some { m with status := st } := by
  induction l with
  | nil => simp at hfind
  | cons y ys ih =>
    rw [List.map_cons]
    by_cases hy : (y.mtype == ct && y.mid == oid) = true
    · simp only [List.find?, hy] at hfind
      injection hfind with hfind
      subst hfind
      rw [if_pos hy]
      have hy2 : (({ y with status := st } : Media).mtype == ct &&
          ({ y with status := st } : Media).mid == oid) = true := by simpa using hy
      simp only [List.find?, hy2]
    · have hy' : (y.mtype == ct && y.mid == oid) = false := by simpa using hy
      simp only [List.find?, hy'] at hfind
      rw [if_neg hy]
      simp only [List.find?, hy']
      exact ih hfind

/-- A media row found by key keeps being found, with the new status,
after `saveMediaStatus` on that key. -/
theorem findMedia_saveMediaStatus (db : Db) (ct : MType) (oid : Nat)
    (m : Media) (st : MediaStatus) (hfind : findMedia db ct oid = some m) :
    findMedia (saveMediaStatus db ct oid st) ct oid = some { m with status := st } := by
  have := find?_mapStatus ct oid st db.medias m (by simpa [findMedia] using hfind)
  simpa [findMedia, saveMediaStatus] using this

/-! ## Generic lemmas about the filesystem model -/

theorem find?_updateBy_invariant {α : Type} (p q : α → Bool) (v : α) (l : List α)
    (hpq : ∀ x, p x = true → q x = false) (hv : q v = false) :
    (updateBy p v l).find? q = l.find? q := by
  induction l with
  | nil => rfl
  | cons y ys ih =>
    rw [updateBy_cons]
    by_cases hy : p y = true
    · rw [if_pos hy]
      rw [List.find?_cons_of_neg _ (by simp [hv]),
          List.find?_cons_of_neg _ (by simp [hpq y hy])]
      exact ih
    · rw [if_neg hy]
      by_cases hq : q y = true
      · rw [List.find?_cons_of_pos _ hq, List.find?_cons_of_pos _ hq]
      · rw [List.find?_cons_of_neg _ hq, List.find?_cons_of_neg _ hq]
        exact ih

theorem lookup_write_self (fs : Fs) (p c : String) :
    (fs.write p c).lookup p = some (FsEntry.file c) := by
  unfold Fs.write
  by_cases hany : (fs.entries.any fun e => e.1 == p) = true
  · rw [if_pos hany]
    unfold Fs.lookup
    cases hf : fs.entries.find? (fun e => e.1 == p) with
    | none =>
      obtain ⟨x, hx, hpx⟩ := List.any_eq_true.mp hany
      rw [List.find?_eq_none] at hf
      exact absurd hpx (by simpa using hf x hx)
    | some y =>
      rw [find?_updateBy_self _ _ _ y hf (by simp)]
      rfl
  · rw [if_neg hany]
    unfold Fs.lookup
    have hnone : fs.entries.find? (fun e => e.1 == p) = none := by
      rw [List.find?_eq_none]
      intro x hx
      have := List.any_eq_true.not.mp hany
      simp only [not_exists, not_and] at this
      intro hc
      have h2 := this x
      rw [hc] at h2
      simp at h2
      exact h2 hx
    rw [List.find?_append, hnone]
    simp

theorem lookup_write_other (fs : Fs) (p c q : String) (h : q ≠ p) :
    (fs.write p c).lookup q = fs.lookup q := by
  unfold Fs.write
  by_cases hany : (fs.entries.any fun e => e.1 == p) = true
  · rw [if_pos hany]
    unfold Fs.lookup
    rw [find?_updateBy_invariant _ _ _ _ ?_ (by simp [Ne.symm h])]
    intro x hx
    have hxp : x.1 = p := by simpa using hx
    simp [hxp, Ne.symm h]
  · rw [if_neg hany]
    unfold Fs.lookup
    rw [List.find?_append]
    have : List.find? (fun e => e.1 == q) [(p, FsEntry.file c)] = none := by
      simp [Ne.symm h]
    rw [this]
    cases fs.entries.find? (fun e => e.1 == q) <;> rfl

theorem existsPath_write_self (fs : Fs) (p c : String) :
    (fs.write p c).existsPath p = true := by
  unfold Fs.existsPath
  rw [lookup_write_self]
  rfl

theorem existsPath_write_of (fs : Fs) (p c q : String) (h : fs.existsPath q = true) :
    (fs.write p c).existsPath q = true := by
  by_cases hq : q = p
  · rw [hq]; exact existsPath_write_self fs p c
  · unfold Fs.existsPath at h ⊢
    rw [lookup_write_other fs p c q hq]
    exact h

theorem existsPath_write_existing (fs : Fs) (p c q : String)
    (h : fs.existsPath p = true) : (fs.write p c).existsPath q = fs.existsPath q := by
  by_cases hq : q = p
  · rw [hq, existsPath_write_self fs p c, h]
  · unfold Fs.existsPath
    rw [lookup_write_other fs p c q hq]

theorem isDir_write_of_not (fs : Fs) (p c q : String) (h : fs.isDir q = false) :
    (fs.write p c).isDir q = false := by
  by_cases hq : q = p
  · unfold Fs.isDir
    rw [hq, lookup_write_self]
  · unfold Fs.isDir at h ⊢
    rw [lookup_write_other fs p c q hq]
    exact h

theorem lookup_addEntry_other (fs : Fs) (k : String) (v : FsEntry) (q : String)
    (h : q ≠ k) : (Fs.mk (fs.entries ++ [(k, v)])).lookup q = fs.lookup q := by
  unfold Fs.lookup
  rw [List.find?_append]
  have : List.find? (fun e => e.1 == q) [(k, v)] = none := by simp [Ne.symm h]
  rw [this]
  cases fs.entries.find? (fun e => e.1 == q) <;> rfl

theorem lookup_addEntry_self (fs : Fs) (k : String) (v : FsEntry)
    (h : fs.lookup k = none) : (Fs.mk (fs.entries ++ [(k, v)])).lookup k = some v := by
  unfold Fs.lookup at h ⊢
  rw [List.find?_append]
  have hfn : fs.entries.find? (fun e => e.1 == k) = none := by
    cases hf : fs.entries.find? (fun e => e.1 == k)
    · rfl
    · rw [hf] at h
      simp at h
  rw [hfn]
  simp

theorem existsPath_addEntry_of (fs : Fs) (k : String) (v : FsEntry) (q : String)
    (h : fs.existsPath q = true) :
    (Fs.mk (fs.entries ++ [(k, v)])).existsPath q = true := by
  by_cases hq : q = k
  · subst hq
    unfold Fs.existsPath at h ⊢
    unfold Fs.lookup at h ⊢
    rw [List.find?_append]
    cases hf : fs.entries.find? (fun e => e.1 == q)
    · rw [hf] at h
      simp [Fs.lookup, hf] at h
    · simp [hf]
  · unfold Fs.existsPath
    rw [lookup_addEntry_other fs k v q hq]
    exact h

/-! ## Lemmas about the path helpers and `sanitize_filename` -/

theorem takeWhile_append_of_all {α : Type} (p : α → Bool) (l₁ l₂ : List α) (c : α)
    (h₁ : ∀ x ∈ l₁, p x = true) (hc : p c = false) :
    (l₁ ++ c :: l₂).takeWhile p = l₁ := by
  induction l₁ with
  | nil => simp [List.takeWhile, hc]
  | cons y ys ih =>
    rw [List.cons_append, List.takeWhile_cons, if_pos (h₁ y (List.mem_cons_self _ _))]
    rw [ih fun x hx => h₁ x (List.mem_cons_of_mem _ hx)]

theorem slash_not_mem_replaceInvalid (l : List Char) : '/' ∉ replaceInvalid l := by
  intro h
  rw [replaceInvalid, List.mem_map] at h
  obtain ⟨x, _, hx⟩ := h
  by_cases hinv : invalidFilenameChars.contains x = true
  · rw [if_pos hinv] at hx
    exact absurd hx (by decide)
  · rw [if_neg hinv] at hx
    subst hx
    exact hinv (by decide)

theorem mem_collapseWsAux (b : Bool) (l : List Char) (c : Char)
    (h : c ∈ collapseWsAux b l) : c = ' ' ∨ c ∈ l := by
  induction l generalizing b with
  | nil => simp [collapseWsAux] at h
  | cons y ys ih =>
    rw [collapseWsAux] at h
    by_cases hy : isPySpace y = true
    · rw [if_pos hy] at h
      cases b with
      | true =>
        rw [if_pos rfl] at h
        rcases ih true h with h' | h'
        · exact Or.inl h'
        · exact Or.inr (List.mem_cons_of_mem _ h')
      | false =>
        rw [if_neg (by simp)] at h
        rw [List.mem_cons] at h
        rcases h with h | h
        · exact Or.inl h
        · rcases ih true h with h' | h'
          · exact Or.inl h'
          · exact Or.inr (List.mem_cons_of_mem _ h')
    · rw [if_neg hy, List.mem_cons] at h
      rcases h with h | h
      · exact Or.inr (by simp [h])
      · rcases ih false h with h' | h'
        · exact Or.inl h'
        · exact Or.inr (List.mem_cons_of_mem _ h')

theorem mem_stripList (p : Char → Bool) (l : List Char) (c : Char)
    (h : c ∈ stripList p l) : c ∈ l := by
  unfold stripList at h
  rw [List.mem_reverse] at h
  have h2 := (List.dropWhile_sublist _).mem h
  rw [List.mem_reverse] at h2
  exact (List.dropWhile_sublist _).mem h2

theorem slash_not_mem_sanitizeCore (s : String) : '/' ∉ (sanitizeCore s).data := by
  intro h
  unfold sanitizeCore at h
  have h1 := mem_stripList _ _ _ h
  have h2 := mem_stripList _ _ _ h1
  rcases mem_collapseWsAux _ _ _ h2 with h3 | h3
  · exact absurd h3 (by decide)
  · exact slash_not_mem_replaceInvalid _ h3

theorem slash_not_mem_sanitize (s : String) : '/' ∉ (sanitize_filename s).data := by
  intro h
  unfold sanitize_filename at h
  dsimp only at h
  by_cases hlen : 200 < (sanitizeCore s).length
  · rw [if_pos hlen] at h
    by_cases hempty : (⟨(((sanitizeCore s).data.take 200).reverse.dropWhile
        isPySpace).reverse⟩ : String) = ("" : String)
    · rw [if_pos hempty] at h
      exact absurd h (by decide)
    · rw [if_neg hempty] at h
      rw [List.mem_reverse] at h
      have h2 := (List.dropWhile_sublist _).mem h
      rw [List.mem_reverse] at h2
      have h3 := (List.take_sublist _ _).mem h2
      exact slash_not_mem_sanitizeCore s h3
  · rw [if_neg hlen] at h
    by_cases hempty : sanitizeCore s = ""
    · rw [if_pos hempty] at h
      exact absurd h (by decide)
    · rw [if_neg hempty] at h
      exact slash_not_mem_sanitizeCore s h

theorem sanitize_ne_empty (s : String) : sanitize_filename s ≠ "" := by
  unfold sanitize_filename
  dsimp only
  by_cases hlen : 200 < (sanitizeCore s).length
  · rw [if_pos hlen]
    by_cases hempty : (⟨(((sanitizeCore s).data.take 200).reverse.dropWhile
        isPySpace).reverse⟩ : String) = ("" : String)
    · rw [if_pos hempty]
      decide
    · rw [if_neg hempty]
      exact hempty
  · rw [if_neg hlen]
    by_cases hempty : sanitizeCore s = ""
    · rw [if_pos hempty]
      decide
    · rw [if_neg hempty]
      exact hempty

/-- The sanitized title component of `get_library_path` is nonempty and
slash-free. -/
theorem libtitle_ok (base author title : String) :
    (get_library_path base author title).2 ≠ "" ∧
    '/' ∉ (get_library_path base author title).2.data := by
  unfold get_library_path
  dsimp only
  by_cases ht : (title != "") = true
  · rw [if_pos ht]
    exact ⟨sanitize_ne_empty title, slash_not_mem_sanitize title⟩
  · rw [if_neg ht]
    exact ⟨by decide, by decide⟩

theorem data_ne_nil_of_ne_empty (s : String) (h : s ≠ "") : s.data ≠ [] := by
  intro hc
  exact h (by cases s; simp_all)

theorem strStartsWith_slash_false (f : String) (hne : f ≠ "") (hns : '/' ∉ f.data) :
    strStartsWith f "/" = false := by
  unfold strStartsWith
  cases hf : f.data with
  | nil => exact absurd hf (data_ne_nil_of_ne_empty f hne)
  | cons c cs =>
    have hc : c ≠ '/' := by
      intro hcc
      exact hns (by rw [hf, hcc]; exact List.mem_cons_self _ _)
    show listIsPrefixOf ['/'] (c :: cs) = false
    unfold listIsPrefixOf
    simp [Ne.symm hc]

theorem strEndsWith_slash_false (s b : String) (pre : List Char)
    (hs : s.data = pre ++ b.data) (hne : b ≠ "") (hns : '/' ∉ b.data) :
    strEndsWith s "/" = false := by
  unfold strEndsWith
  cases hb : b.data.reverse with
  | nil =>
    rw [List.reverse_eq_nil_iff] at hb
    exact absurd hb (data_ne_nil_of_ne_empty b hne)
  | cons c cs =>
    have hc : c ≠ '/' := by
      intro hcc
      refine hns ?_
      rw [← List.mem_reverse, hb, hcc]
      exact List.mem_cons_self _ _
    rw [hs, List.reverse_append, hb]
    show listIsPrefixOf ['/'] (c :: (cs ++ pre.reverse)) = false
    unfold listIsPrefixOf
    simp [Ne.symm hc]

/-- Every `pathJoin a b` carries `b` as a data suffix. -/
theorem pathJoin_data_ends (a b : String) :
    ∃ pre : List Char, (pathJoin a b).data = pre ++ b.data := by
  unfold pathJoin
  by_cases h1 : strStartsWith b "/" = true
  · rw [if_pos h1]
    exact ⟨[], rfl⟩
  · rw [if_neg h1]
    by_cases h2 : (a == "") = true
    · rw [if_pos h2]
      exact ⟨[], rfl⟩
    · rw [if_neg h2]
      by_cases h3 : strEndsWith a "/" = true
      · rw [if_pos h3]
        exact ⟨a.data, rfl⟩
      · rw [if_neg h3]
        exact ⟨a.data ++ ['/'], by simp⟩

theorem pathJoin_expand (a b : String) (hb : strStartsWith b "/" = false)
    (ha : a ≠ "") (hae : strEndsWith a "/" = false) :
    pathJoin a b = a ++ "/" ++ b := by
  unfold pathJoin
  rw [hb, if_neg (by simp), if_neg (by simp [ha]), hae, if_neg (by simp)]

theorem pathBasename_append (d f : List Char) (hf : '/' ∉ f) :
    pathBasename ⟨d ++ '/' :: f⟩ = ⟨f⟩ := by
  unfold pathBasename
  have hrev : (⟨d ++ '/' :: f⟩ : String).data.reverse = f.reverse ++ '/' :: d.reverse := by
    simp
  rw [hrev, takeWhile_append_of_all _ _ _ _ ?_ (by decide)]
  · simp
  · intro x hx
    rw [List.mem_reverse] at hx
    simp [show x ≠ '/' from fun hc => hf (hc ▸ hx)]

theorem pathParent_append (d f : List Char) (hf : '/' ∉ f) (hd : d ≠ []) :
    pathParent ⟨d ++ '/' :: f⟩ = ⟨d⟩ := by
  have hrev : (⟨d ++ '/' :: f⟩ : String).data.reverse = f.reverse ++ '/' :: d.reverse := by
    simp
  have htw : (f.reverse ++ '/' :: d.reverse).takeWhile (fun c => c != '/') = f.reverse :=
    takeWhile_append_of_all _ _ _ _
      (fun x hx => by
        rw [List.mem_reverse] at hx
        simp [show x ≠ '/' from fun hc => hf (hc ▸ hx)])
      (by decide)
  unfold pathParent
  dsimp only
  rw [hrev, htw]
  rw [if_neg ?hlen]
  case hlen =>
    simp only [List.length_append, List.length_reverse, List.length_cons, beq_iff_eq]
    omega
  have hdrop : (f.reverse ++ '/' :: d.reverse).drop (f.reverse.length + 1) = d.reverse := by
    have hsplit : f.reverse ++ '/' :: d.reverse = (f.reverse ++ ['/']) ++ d.reverse := by simp
    have hl : f.reverse.length + 1 = (f.reverse ++ ['/']).length := by simp
    rw [hsplit, hl, List.drop_left]
  rw [hdrop, if_neg (by simp [hd])]
  simp

theorem suffixOfName_append (t : String) (r : List Char) (hdot : '.' ∉ r) (hr : r ≠ [])
    (ht : t ≠ "") : suffixOfName ⟨t.data ++ '.' :: r⟩ = ⟨'.' :: r⟩ := by
  have hrev : (⟨t.data ++ '.' :: r⟩ : String).data.reverse =
      r.reverse ++ '.' :: t.data.reverse := by simp
  have htw : (r.reverse ++ '.' :: t.data.reverse).takeWhile (fun c => c != '.') =
      r.reverse :=
    takeWhile_append_of_all _ _ _ _
      (fun x hx => by
        rw [List.mem_reverse] at hx
        simp [show x ≠ '.' from fun hc => hdot (hc ▸ hx)])
      (by decide)
  unfold suffixOfName
  dsimp only
  rw [hrev, htw]
  rw [if_pos (by simp [List.length_pos, hr]), if_pos ?hlt]
  case hlt =>
    simp only [List.length_append, List.length_reverse, List.length_cons]
    have : t.data ≠ [] := data_ne_nil_of_ne_empty t ht
    have : 0 < t.data.length := List.length_pos.mpr this
    omega
  simp

theorem slash_not_mem_basename (p : String) (x : Char)
    (hx : x ∈ (pathBasename p).data) : x ≠ '/' := by
  unfold pathBasename at hx
  rw [List.mem_reverse] at hx
  have := List.mem_takeWhile_imp hx
  simpa using this

theorem pathSuffix_structure (p : String) (h : pathSuffix p ≠ "") :
    ∃ r : List Char, pathSuffix p = ⟨'.' :: r⟩ ∧ '.' ∉ r ∧ r ≠ [] ∧ '/' ∉ r := by
  unfold pathSuffix suffixOfName at h ⊢
  dsimp only at h ⊢
  by_cases h1 : 0 < ((pathBasename p).data.reverse.takeWhile (fun c => c != '.')).length
  · rw [if_pos h1] at h ⊢
    by_cases h2 : ((pathBasename p).data.reverse.takeWhile (fun c => c != '.')).length + 1 <
        (pathBasename p).data.reverse.length
    · rw [if_pos h2] at h ⊢
      refine ⟨((pathBasename p).data.reverse.takeWhile (fun c => c != '.')).reverse,
        rfl, ?_, ?_, ?_⟩
      · intro hc
        rw [List.mem_reverse] at hc
        have := List.mem_takeWhile_imp hc
        simp at this
      · intro hc
        rw [List.reverse_eq_nil_iff] at hc
        rw [hc] at h1
        simp at h1
      · intro hc
        rw [List.mem_reverse] at hc
        have := (List.takeWhile_sublist _).mem hc
        rw [List.mem_reverse] at this
        exact slash_not_mem_basename p '/' this rfl
    · rw [if_neg h2] at h
      exact absurd rfl h
  · rw [if_neg h1] at h
    exact absurd rfl h

theorem pathSuffix_dest (libdir title' : String) (r : List Char)
    (htitle : title' ≠ "") (hts : '/' ∉ title'.data)
    (hdot : '.' ∉ r) (hr : r ≠ []) (hslash : '/' ∉ r) :
    pathSuffix ⟨libdir.data ++ '/' :: (title'.data ++ '.' :: r)⟩ = ⟨'.' :: r⟩ := by
  unfold pathSuffix
  rw [pathBasename_append libdir.data (title'.data ++ '.' :: r) ?noslash]
  · exact suffixOfName_append title' r hdot hr htitle
  case noslash =>
    intro hmem
    rcases List.mem_append.mp hmem with hm | hm
    · exact hts hm
    · rw [List.mem_cons] at hm
      rcases hm with hm | hm
      · exact absurd hm (by decide)
      · exact hslash hm

theorem updateBy_idem {α : Type} (p : α → Bool) (v : α) (l : List α) :
    updateBy p v (updateBy p v l) = updateBy p v l := by
  induction l with
  | nil => rfl
  | cons y ys ih =>
    rw [updateBy_cons, updateBy_cons, ih]
    by_cases hy : p y = true
    · rw [if_pos hy, ite_self]
    · rw [if_neg hy, if_neg hy]

theorem findMedia_saveMedia_self (db : Db) (ct : MType) (oid : Nat) (m m' : Media)
    (hfind : findMedia db ct oid = some m) (h1 : m'.mtype = ct) (h2 : m'.mid = oid) :
    findMedia (saveMedia db m') ct oid = some m' := by
  unfold findMedia at hfind ⊢
  unfold saveMedia
  simp only [h1, h2]
  exact find?_updateBy_self _ _ _ m hfind (by simp [h1, h2])

theorem saveMedia_noop (db : Db) (m : Media)
    (h : updateBy (fun x => x.mtype == m.mtype && x.mid == m.mid) m db.medias = db.medias) :
    saveMedia db m = db := by
  unfold saveMedia
  rw [h]

theorem saveAttempt_noop (db : Db) (a : DownloadAttempt)
    (h : updateBy (fun b => b.aid == a.aid) a db.attempts = db.attempts) :
    saveAttempt db a = db := by
  unfold saveAttempt
  rw [h]

theorem isFile_write_of (fs : Fs) (p c q : String) (h : fs.isFile q = true) :
    (fs.write p c).isFile q = true := by
  by_cases hq : q = p
  · unfold Fs.isFile
    rw [hq, lookup_write_self]
  · unfold Fs.isFile at h ⊢
    rw [lookup_write_other fs p c q hq]
    exact h

theorem isFile_write_self (fs : Fs) (p c : String) : (fs.write p c).isFile p = true := by
  unfold Fs.isFile
  rw [lookup_write_self]

theorem isDir_eq_false_of_isFile (fs : Fs) (q : String) (h : fs.isFile q = true) :
    fs.isDir q = false := by
  unfold Fs.isFile at h
  unfold Fs.isDir
  cases hl : fs.lookup q with
  | none => rfl
  | some e =>
    cases e with
    | file c => rfl
    | dir => rw [hl] at h; exact absurd h (by decide)

theorem existsPath_of_isFile (fs : Fs) (q : String) (h : fs.isFile q = true) :
    fs.existsPath q = true := by
  unfold Fs.isFile at h
  unfold Fs.existsPath
  cases hl : fs.lookup q with
  | none => rw [hl] at h; exact absurd h (by decide)
  | some e => rfl

theorem media_update_library_self (m : Media) (v : String) (h : m.library_path = v) :
    ({ m with library_path := v } : Media) = m := by
  cases m
  simp_all

theorem media_update_cover_self (m : Media) (v : String) (h : m.cover_path = v) :
    ({ m with cover_path := v } : Media) = m := by
  cases m
  simp_all

theorem attempt_update_post_self (a : DownloadAttempt) (v : String)
    (h : a.post_processed_file_path = v) :
    ({ a with post_processed_file_path := v } : DownloadAttempt) = a := by
  cases a
  simp_all

theorem string_eq_of_data (s t : String) (h : s.data = t.data) : s = t := by
  cases s
  cases t
  exact congrArg String.mk h

theorem str_ne_of_data_longer (s t : String) (h : t.data.length < s.data.length) :
    s ≠ t := by
  intro hc
  rw [hc] at h
  exact Nat.lt_irrefl _ h

theorem writeOpf_lookup_other (env : ProcessEnv) (x : Media) (p : String) (fs : Fs)
    (q : String) (h : q ≠ p) : (writeOpfSidecar env x p fs).lookup q = fs.lookup q := by
  unfold writeOpfSidecar
  cases env.generateOpf x with
  | ok c => exact lookup_write_other fs p c q h
  | error e => rfl

theorem writeOpf_existsPath_of (env : ProcessEnv) (x : Media) (p : String) (fs : Fs)
    (q : String) (h : fs.existsPath q = true) :
    (writeOpfSidecar env x p fs).existsPath q = true := by
  unfold writeOpfSidecar
  cases env.generateOpf x with
  | ok c => exact existsPath_write_of fs p c q h
  | error e => exact h

theorem writeOpf_isFile_of (env : ProcessEnv) (x : Media) (p : String) (fs : Fs)
    (q : String) (h : fs.isFile q = true) :
    (writeOpfSidecar env x p fs).isFile q = true := by
  unfold writeOpfSidecar
  cases env.generateOpf x with
  | ok c => exact isFile_write_of fs p c q h
  | error e => exact h

theorem writeOpf_existsPath_existing (env : ProcessEnv) (x : Media) (p : String) (fs : Fs)
    (q : String) (h : fs.existsPath p = true) :
    (writeOpfSidecar env x p fs).existsPath q = fs.existsPath q := by
  unfold writeOpfSidecar
  cases env.generateOpf x with
  | ok c => exact existsPath_write_existing fs p c q h
  | error e => rfl

theorem writeOpf_existsPath_self_of_ok (env : ProcessEnv) (x : Media) (p : String)
    (fs : Fs) (h : (env.generateOpf x).isOk = true) :
    (writeOpfSidecar env x p fs).existsPath p = true := by
  unfold writeOpfSidecar
  cases hg : env.generateOpf x with
  | ok c => exact existsPath_write_self fs p c
  | error e =>
    rw [hg] at h
    exact absurd h (by simp [Except.isOk, Except.toBool])

theorem downloadCoverStep_of_ok (env : ProcessEnv) (x : Media) (p : String) (fs : Fs)
    (c : String) (h : env.downloadCover x.cover_url = .ok c) :
    downloadCoverStep env x p fs = (fs.write p c, some p) := by
  unfold downloadCoverStep
  rw [h]

theorem except_isOk_exists {ε α : Type} (e : Except ε α) (h : e.isOk = true) :
    ∃ a, e = .ok a := by
  cases e with
  | ok a => exact ⟨a, rfl⟩
  | error x => exact absurd h (by simp [Except.isOk, Except.toBool])


theorem get_library_path_fst (b au t : String) :
    (get_library_path b au t).1 =
      pathJoin (pathJoin b (if (au != "") = true then sanitize_filename au else "Unknown Author"))
        (get_library_path b au t).2 := rfl

/-- First organization of a fresh source file: the library directory is
created and the file is copied to the destination. -/
theorem organize_to_library_fresh (fs : Fs) (src base author title content : String)
    (hsrc : fs.lookup src = some (FsEntry.file content))
    (hbase : fs.existsPath base = true)
    (hdir : fs.lookup (get_library_path base author title).1 = none)
    (hdest : fs.existsPath (pathJoin (get_library_path base author title).1
      ((get_library_path base author title).2 ++ pathSuffix src)) = false)
    (hls : (get_library_path base author title).1 ≠ src)
    (hdl : pathJoin (get_library_path base author title).1
      ((get_library_path base author title).2 ++ pathSuffix src) ≠
        (get_library_path base author title).1) :
    organize_to_library fs src base author title =
      ((Fs.mk (fs.entries ++ [((get_library_path base author title).1, FsEntry.dir)])).write
        (pathJoin (get_library_path base author title).1
          ((get_library_path base author title).2 ++ pathSuffix src)) content,
       .ok (pathJoin (get_library_path base author title).1
          ((get_library_path base author title).2 ++ pathSuffix src))) := by
  have hex_src : fs.existsPath src = true := by
    unfold Fs.existsPath
    rw [hsrc]
    rfl
  unfold organize_to_library
  rw [hex_src]
  rw [if_neg (by simp)]
  rw [hbase, if_neg (by simp)]
  have hmk : fs.mkdirs (get_library_path base author title).1 =
      .ok (Fs.mk (fs.entries ++ [((get_library_path base author title).1, FsEntry.dir)])) := by
    unfold Fs.mkdirs
    rw [hdir]
  dsimp only
  rw [hmk]
  dsimp only
  have hex_dest : (Fs.mk (fs.entries ++
      [((get_library_path base author title).1, FsEntry.dir)])).existsPath
        (pathJoin (get_library_path base author title).1
          ((get_library_path base author title).2 ++ pathSuffix src)) = false := by
    unfold Fs.existsPath
    rw [lookup_addEntry_other _ _ _ _ hdl]
    unfold Fs.existsPath at hdest
    exact hdest
  rw [hex_dest]
  rw [if_neg (by simp)]
  have hlsrc : (Fs.mk (fs.entries ++
      [((get_library_path base author title).1, FsEntry.dir)])).lookup src =
        some (FsEntry.file content) := by
    rw [lookup_addEntry_other _ _ _ _ (Ne.symm hls)]
    exact hsrc
  rw [hlsrc]

/-- Re-organizing when the source is already the destination: the
samefile check short-circuits and nothing is copied. -/
theorem organize_to_library_rerun (fs : Fs) (base author title : String)
    (dest : String)
    (hdesteq : pathJoin (get_library_path base author title).1
      ((get_library_path base author title).2 ++ pathSuffix dest) = dest)
    (hsrc : fs.isFile dest = true)
    (hbase : fs.existsPath base = true)
    (hdir : fs.lookup (get_library_path base author title).1 = some FsEntry.dir) :
    organize_to_library fs dest base author title = (fs, .ok dest) := by
  have hex_src : fs.existsPath dest = true := existsPath_of_isFile fs dest hsrc
  unfold organize_to_library
  rw [hex_src, if_neg (by simp), hbase, if_neg (by simp)]
  have hmk : fs.mkdirs (get_library_path base author title).1 = .ok fs := by
    unfold Fs.mkdirs
    rw [hdir]
  dsimp only
  rw [hmk]
  dsimp only
  rw [hdesteq, hex_src]
  have hsame : fs.samefile dest dest = true := by
    unfold Fs.samefile
    rw [hex_src]
    simp
  rw [hsame]
  rw [if_pos (by simp)]

/-- The library directory the organization stage computes for a media
item under a configuration. -/
def orgLibDir (config : ProcessingConfiguration) (m : Media) : String :=
  (get_library_path config.library_base_path (orgAuthor m) m.title).1

/-- The sanitized title component of that directory. -/
def orgTitle (config : ProcessingConfiguration) (m : Media) : String :=
  (get_library_path config.library_base_path (orgAuthor m) m.title).2

/-- The destination path for a source with extension `ext`. -/
def orgDest (config : ProcessingConfiguration) (m : Media) (ext : String) : String :=
  pathJoin (orgLibDir config m) (orgTitle config m ++ ext)

/-! ## Shared concrete sample data for the closed instances -/

/-- A sample wanted book. -/
def mediaDune : Media :=
  { mtype := .book, mid := 1, title := "Dune", authors := ["Frank Herbert"],
    status := .wanted, cover_url := "", library_path := "", cover_path := "" }

/-- A sample usenet search result for that book. -/
def resultDune : SearchResult :=
  { guid := "g1", title := "Dune", indexer := "idx", indexer_id := 5, size := none,
    publish_date := none, seeders := none, peers := none, protocol := "usenet",
    download_url := "http://example.com/a.nzb", info_url := none }

/-- A sample attempt currently DOWNLOADING for `mediaDune`. -/
def attemptActive : DownloadAttempt :=
  { aid := 1, content_type := .book, object_id := 1, indexer := "idx", indexer_id := "5",
    release_title := "Dune", download_url := "http://example.com/a.nzb", file_size := none,
    seeders := none, leechers := none, status := .downloading, error_type := "",
    error_reason := "", download_client := some 1, download_client_download_id := "nzo1",
    raw_file_path := "", post_processed_file_path := "", post_process_status := "" }

/-- A sample enabled SABnzbd configuration. -/
def cfgSab : DownloadClientConfiguration :=
  { cfgId := 1, name := "sab", client_type := "sabnzbd", host := "localhost", port := 8080,
    use_ssl := false, api_key := "k", enabled := true, priority := 0 }

/-- A benign oracle environment for the closed instances. -/
def envTriv : DownloadEnv :=
  { prowlarr := fun _ _ => .error "unreachable"
    addDownload := fun _ _ _ => .ok (some "nzo1")
    getJobStatus := fun _ => .ok none
    deleteJob := fun _ => .ok true }

/-! ## C3 — the search-query list -/

/-- The spec's example media: "Dune" by "Frank Herbert". -/
def duneByHerbert : Media :=
  { mtype := .book, mid := 7, title := "Dune", authors := ["Frank Herbert"],
    status := .wanted, cover_url := "", library_path := "", cover_path := "" }

/-- **C3 counterexample**: for "Dune" by "Frank Herbert" the built query
list is exactly the single bare-title entry `("Dune", 0)`; no query
mentions the author and no two entries with strictly different priority
ranks exist, so the claimed title+author query at a strictly better rank
than the bare-title query does not exist. -/
theorem build_search_queries_dune_counterexample :
    build_search_queries duneByHerbert = [("Dune", 0)] ∧
    (∀ q ∈ build_search_queries duneByHerbert, q.1 = "Dune") ∧
    ¬ ∃ qa qt : String × Nat, qa ∈ build_search_queries duneByHerbert ∧
        qt ∈ build_search_queries duneByHerbert ∧ qa.2 < qt.2 := by
  have hq : build_search_queries duneByHerbert = [("Dune", 0)] := rfl
  refine ⟨hq, ?_, ?_⟩
  · intro q hqmem
    rw [hq, List.mem_singleton] at hqmem
    rw [hqmem]
  · rintro ⟨qa, qt, hqa, hqt, hlt⟩
    rw [hq, List.mem_singleton] at hqa hqt
    rw [hqa, hqt] at hlt
    exact Nat.lt_irrefl 0 hlt

/-- **C3 amended**: for every media item the built query list is exactly
the single entry `(title.strip(), 0)` — one bare-title query at priority
0, with no combined title+author query. -/
theorem build_search_queries_amended (media : Media) :
    build_search_queries media = [(pyStrip media.title, 0)] ∧
    ∀ q ∈ build_search_queries media, q.1 = pyStrip media.title ∧ q.2 = 0 := by
  refine ⟨rfl, ?_⟩
  intro q hq
  rw [build_search_queries, List.mem_singleton] at hq
  rw [hq]
  exact ⟨rfl, rfl⟩

/-- Closed instance of the amended C3. -/
theorem build_search_queries_amended_witness :
    build_search_queries duneByHerbert = [(pyStrip "Dune", 0)] ∧
    ∀ q ∈ build_search_queries duneByHerbert, q.1 = pyStrip "Dune" ∧ q.2 = 0 :=
  build_search_queries_amended duneByHerbert

/-! ## C6 — blacklisted releases never surface -/

theorem mem_insertKeepLeft {α : Type} (lt : α → α → Bool) (x y : α) (l : List α)
    (h : y ∈ insertKeepLeft lt x l) : y = x ∨ y ∈ l := by
  induction l with
  | nil => simpa [insertKeepLeft] using h
  | cons z zs ih =>
    rw [insertKeepLeft] at h
    by_cases hc : lt x z = true
    · rw [if_pos hc, List.mem_cons] at h
      rcases h with h | h
      · exact Or.inl h
      · exact Or.inr h
    · rw [if_neg hc, List.mem_cons] at h
      rcases h with h | h
      · exact Or.inr (by simp [h])
      · rcases ih h with h | h
        · exact Or.inl h
        · exact Or.inr (List.mem_cons_of_mem _ h)

theorem mem_stableSort {α : Type} (lt : α → α → Bool) (l : List α) (y : α)
    (h : y ∈ stableSort lt l) : y ∈ l := by
  suffices haux : ∀ (l : List α) (acc : List α),
      y ∈ l.foldl (fun acc x => insertKeepLeft lt x acc) acc → y ∈ acc ∨ y ∈ l by
    rcases haux l [] h with h' | h'
    · simp at h'
    · exact h'
  intro l
  induction l with
  | nil => intro acc h; exact Or.inl h
  | cons z zs ih =>
    intro acc h
    rcases ih (insertKeepLeft lt z acc) h with h' | h'
    · rcases mem_insertKeepLeft lt z y acc h' with h'' | h''
      · exact Or.inr (by simp [h''])
      · exact Or.inl h''
    · exact Or.inr (List.mem_cons_of_mem _ h')

/-- **C6**: a search result whose `(indexer, indexer-release-id)` pair is
blacklisted for the media item never appears in the list returned by
`search_for_media`, whatever the indexer search oracle returns and
whatever the result's rank would have been. -/
theorem search_for_media_excludes_blacklisted
    (search : String → Nat → Nat → Except String (List SearchResult))
    (blacklist : List DownloadBlacklist) (media : Media) (r : SearchResult)
    (hb : is_blacklisted blacklist media r = true) :
    r ∉ search_for_media search blacklist media := by
  intro hmem
  unfold search_for_media at hmem
  have h1 : r ∈ sort_results (filter_blacklisted blacklist media
      (deduplicate_results ((build_search_queries media).foldl
        (fun acc qp =>
          match search qp.1 (get_category_for_media media) 50 with
          | .ok results => acc ++ results.map (fun r => (r, qp.2))
          | .error _ => acc)
        []))) := List.mem_of_mem_take hmem
  unfold sort_results at h1
  rw [List.mem_map] at h1
  obtain ⟨rp, hrp, hrpeq⟩ := h1
  have h2 := mem_stableSort resultKeyLt _ rp hrp
  unfold filter_blacklisted at h2
  rw [List.mem_filter] at h2
  have h3 := h2.2
  rw [hrpeq] at h3
  rw [hb] at h3
  exact absurd h3 (by decide)

/-- A blacklist entry matching `resultDune` for `mediaDune`. -/
def blEntryDune : DownloadBlacklist :=
  { content_type := .book, object_id := 1, indexer := "idx", indexer_id := "5",
    release_title := "Dune", download_url := "http://example.com/a.nzb",
    reason := "manual", reason_details := "" }

/-- Closed instance of C6: even when the only query returns exactly the
blacklisted result, it is dropped. -/
theorem search_for_media_excludes_blacklisted_witness :
    resultDune ∉ search_for_media (fun _ _ _ => .ok [resultDune]) [blEntryDune] mediaDune :=
  search_for_media_excludes_blacklisted (fun _ _ _ => Except.ok [resultDune]) [blEntryDune]
    mediaDune resultDune
    (show is_blacklisted [blEntryDune] mediaDune resultDune = true by decide)

/-! ## C2 — `delete_download_attempt` and the WANTED reset -/

/-- A DOWNLOADED attempt for `mediaDune`'s key with no siblings and no
recorded file paths. -/
def attemptDownloadedLone : DownloadAttempt :=
  { attemptActive with status := AttemptStatus.downloaded, download_client := none,
                       download_client_download_id := "" }

/-- `mediaDune` after its download completed. -/
def mediaDownloaded : Media :=
  { mediaDune with status := MediaStatus.downloaded }

/-- Store for the C2 counterexample: one DOWNLOADED media with one
DOWNLOADED attempt and nothing else. -/
def dbDownloadedLone : Db :=
  { medias := [mediaDownloaded], attempts := [attemptDownloadedLone], blacklist := [],
    configs := [], pconfigs := [], nextAttemptId := 2 }

/-- **C2 counterexample**: deleting the DOWNLOADED attempt — whose media
has no other DOWNLOADED/DOWNLOADING/SENT attempt — succeeds with an empty
message list (so "Media status reset to WANTED" is not among the
messages) and leaves the media's status DOWNLOADED, not WANTED: the
reset only runs when the deleted attempt was SENT or DOWNLOADING. -/
theorem delete_download_attempt_downloaded_counterexample :
    delete_download_attempt envTriv dbDownloadedLone ⟨[]⟩ 1 =
      ({ dbDownloadedLone with attempts := [] }, (⟨[]⟩ : Fs), .ok (true, [])) ∧
    findMedia (delete_download_attempt envTriv dbDownloadedLone ⟨[]⟩ 1).1 MType.book 1 =
      some mediaDownloaded ∧
    mediaDownloaded.status = MediaStatus.downloaded := by
  exact ⟨rfl, rfl, rfl⟩

/-- **C2 amended**: for every attempt in SENT or DOWNLOADING status whose
media has no other attempt left in DOWNLOADED, DOWNLOADING or SENT
status, `delete_download_attempt` resets the owning media's status to
WANTED and includes "Media status reset to WANTED" among the returned
messages.  (For a DOWNLOADED attempt the reset never runs.) -/
theorem delete_download_attempt_active_resets_media (env : DownloadEnv) (db : Db)
    (fs : Fs) (attemptId : Nat) (a : DownloadAttempt) (m : Media)
    (hfind : findAttempt db attemptId = some a)
    (hactive : a.status = AttemptStatus.sent ∨ a.status = AttemptStatus.downloading)
    (hm : findMedia db a.content_type a.object_id = some m)
    (hnoother : ∀ a' ∈ db.attempts, (a'.aid == attemptId) = false →
      (a'.content_type == a.content_type && a'.object_id == a.object_id &&
        (a'.status == AttemptStatus.downloaded || a'.status == AttemptStatus.downloading ||
          a'.status == AttemptStatus.sent)) = false) :
    ∃ msgs fs',
      delete_download_attempt env db fs attemptId =
        (saveMediaStatus { db with attempts := db.attempts.filter (fun x => x.aid != attemptId) }
           a.content_type a.object_id MediaStatus.wanted, fs', Except.ok (true, msgs)) ∧
      "Media status reset to WANTED" ∈ msgs ∧
      findMedia (saveMediaStatus
          { db with attempts := db.attempts.filter (fun x => x.aid != attemptId) }
          a.content_type a.object_id MediaStatus.wanted) a.content_type a.object_id =
        some { m with status := MediaStatus.wanted } := by
  have hwa : (a.status == AttemptStatus.sent || a.status == AttemptStatus.downloading) = true := by
    rcases hactive with h | h <;> simp [h]
  have hho : ((db.attempts.filter (fun x => x.aid != attemptId)).any fun x =>
      x.content_type == a.content_type && x.object_id == a.object_id &&
        (x.status == AttemptStatus.downloaded || x.status == AttemptStatus.downloading ||
          x.status == AttemptStatus.sent)) = false := by
    rw [List.any_eq_false]
    intro x hx
    rw [List.mem_filter] at hx
    have hxid : (x.aid == attemptId) = false := by
      have := hx.2
      simpa [bne] using this
    simp [hnoother x hx.1 hxid]
  have hmfilter : findMedia
      { db with attempts := db.attempts.filter (fun x => x.aid != attemptId) }
      a.content_type a.object_id = some m := hm
  refine ⟨cancelRemoteJobMessages env a ++
      (removeLocalFile fs a.raw_file_path "Raw file deleted").2 ++
      (removeLocalFile (removeLocalFile fs a.raw_file_path "Raw file deleted").1
        a.post_processed_file_path "Post-processed file deleted").2 ++
      ["Media status reset to WANTED"],
    (removeLocalFile (removeLocalFile fs a.raw_file_path "Raw file deleted").1
      a.post_processed_file_path "Post-processed file deleted").1, ?_, ?_, ?_⟩
  · unfold delete_download_attempt
    rw [hfind]
    dsimp only
    rw [hwa, if_pos rfl, if_pos rfl, hm]
    dsimp only
    rw [hho, Bool.not_false, if_pos rfl]
  · simp
  · exact findMedia_saveMediaStatus _ _ _ m _ hmfilter

/-- Closed instance of the amended C2: deleting the single DOWNLOADING
attempt resets the media to WANTED and reports it. -/
theorem delete_download_attempt_active_resets_media_witness :
    ∃ msgs fs',
      delete_download_attempt envTriv
          { medias := [mediaDune], attempts := [attemptActive], blacklist := [],
            configs := [], pconfigs := [], nextAttemptId := 2 } ⟨[]⟩ 1 =
        (saveMediaStatus
            { medias := [mediaDune],
              attempts := ([attemptActive] : List DownloadAttempt).filter
                (fun x => x.aid != 1),
              blacklist := [], configs := [], pconfigs := [], nextAttemptId := 2 }
            MType.book 1 MediaStatus.wanted, fs', Except.ok (true, msgs)) ∧
      "Media status reset to WANTED" ∈ msgs ∧
      findMedia (saveMediaStatus
          { medias := [mediaDune],
            attempts := ([attemptActive] : List DownloadAttempt).filter
              (fun x => x.aid != 1),
            blacklist := [], configs := [], pconfigs := [], nextAttemptId := 2 }
          MType.book 1 MediaStatus.wanted) MType.book 1 =
        some { mediaDune with status := MediaStatus.wanted } :=
  delete_download_attempt_active_resets_media envTriv _ ⟨[]⟩ 1 attemptActive mediaDune
    (by decide) (Or.inr (by decide)) (by decide) (by decide)

/-! ## C7 — `sanitize_filename` -/

/-- No whitespace character is in the invalid-character class. -/
theorem not_invalid_of_space (c : Char) (h : isPySpace c = true) :
    invalidFilenameChars.contains c = false := by
  by_contra hcon
  rw [Bool.not_eq_false] at hcon
  have hmem : c ∈ invalidFilenameChars := by simpa using hcon
  fin_cases hmem <;> exact absurd h (by decide)

/-- `replaceInvalid` is the identity on all-whitespace input. -/
theorem replaceInvalid_of_space (l : List Char) (h : ∀ c ∈ l, isPySpace c = true) :
    replaceInvalid l = l := by
  induction l with
  | nil => rfl
  | cons c rest ih =>
    show (if invalidFilenameChars.contains c then '_' else c) :: replaceInvalid rest = _
    rw [not_invalid_of_space c (h c (List.mem_cons_self _ _)), if_neg (by simp),
        ih fun x hx => h x (List.mem_cons_of_mem _ hx)]

/-- Collapsing an all-whitespace tail inside a run yields nothing. -/
theorem collapseWsAux_true_of_space (l : List Char) (h : ∀ c ∈ l, isPySpace c = true) :
    collapseWsAux true l = [] := by
  induction l with
  | nil => rfl
  | cons c rest ih =>
    show collapseWsAux true (c :: rest) = []
    rw [collapseWsAux, if_pos (h c (List.mem_cons_self _ _)), if_pos rfl]
    exact ih fun x hx => h x (List.mem_cons_of_mem _ hx)

/-- Collapsing an all-whitespace input yields at most one space. -/
theorem collapseWsAux_false_of_space (l : List Char) (h : ∀ c ∈ l, isPySpace c = true) :
    collapseWsAux false l = [] ∨ collapseWsAux false l = [' '] := by
  cases l with
  | nil => exact Or.inl rfl
  | cons c rest =>
    refine Or.inr ?_
    show collapseWsAux false (c :: rest) = [' ']
    rw [collapseWsAux, if_pos (h c (List.mem_cons_self _ _)), if_neg (by simp)]
    rw [collapseWsAux_true_of_space rest fun x hx => h x (List.mem_cons_of_mem _ hx)]

/-- The sanitize pipeline maps whitespace-only input to the empty string. -/
theorem sanitizeCore_of_space (s : String) (hs : ∀ c ∈ s.data, isPySpace c = true) :
    sanitizeCore s = "" := by
  unfold sanitizeCore
  rw [replaceInvalid_of_space s.data hs]
  rcases collapseWsAux_false_of_space s.data hs with h | h <;> rw [h] <;> rfl

/-- The >200-character input of the truncation counterexample: 199 `a`s,
one space, 10 `b`s (211 characters would collapse to 210 sanitized). -/
def truncCex : String :=
  ⟨List.replicate 199 'a' ++ ' ' :: List.replicate 10 'b'⟩

/-- **C7 counterexample**: `truncCex` sanitizes (before the length check)
to 210 characters — more than 200 — yet the returned string has 199
characters, not exactly 200: the truncation to 200 lands after the space,
which the final `rstrip` then removes. -/
theorem sanitize_filename_truncation_counterexample :
    200 < (sanitizeCore truncCex).length ∧ (sanitize_filename truncCex).length ≠ 200 ∧
    (sanitize_filename truncCex).length = 199 := by
  refine ⟨by decide, ?_, by decide⟩
  intro hcon
  rw [show (sanitize_filename truncCex).length = 199 from by decide] at hcon
  exact absurd hcon (by decide)

/-- **C7 amended**: `sanitize_filename` maps `"Test/Book:Title"` to
`"Test_Book_Title"`, maps every empty or whitespace-only input to
`"Unknown"`, and for every input whose sanitized form exceeds 200
characters returns the 200-character prefix right-stripped of trailing
whitespace (falling back to `"Unknown"` were that empty) — hence at most
200 characters, not always exactly 200. -/
theorem sanitize_filename_spec :
    sanitize_filename "Test/Book:Title" = "Test_Book_Title" ∧
    (∀ s : String, (∀ c ∈ s.data, isPySpace c = true) → sanitize_filename s = "Unknown") ∧
    (∀ s : String, 200 < (sanitizeCore s).length →
      (sanitize_filename s).length ≤ 200 ∧
      (pyRStrip ⟨(sanitizeCore s).data.take 200⟩ ≠ "" →
        sanitize_filename s = pyRStrip ⟨(sanitizeCore s).data.take 200⟩)) := by
  refine ⟨by decide, ?_, ?_⟩
  · intro s hs
    unfold sanitize_filename
    rw [sanitizeCore_of_space s hs]
    rfl
  · intro s hlen
    have hform : sanitize_filename s =
        if pyRStrip ⟨(sanitizeCore s).data.take 200⟩ = ("" : String) then "Unknown"
        else pyRStrip ⟨(sanitizeCore s).data.take 200⟩ := by
      unfold sanitize_filename
      dsimp only
      rw [if_pos hlen]
      rfl
    constructor
    · rw [hform]
      by_cases hr : pyRStrip ⟨(sanitizeCore s).data.take 200⟩ = ("" : String)
      · rw [if_pos hr]
        decide
      · rw [if_neg hr]
        show (pyRStrip ⟨(sanitizeCore s).data.take 200⟩).data.length ≤ 200
        unfold pyRStrip
        calc ((⟨(sanitizeCore s).data.take 200⟩ : String).data.reverse.dropWhile
                isPySpace).reverse.length
            = ((⟨(sanitizeCore s).data.take 200⟩ : String).data.reverse.dropWhile
                isPySpace).length := by rw [List.length_reverse]
          _ ≤ (⟨(sanitizeCore s).data.take 200⟩ : String).data.reverse.length :=
              (List.dropWhile_sublist _).length_le
          _ = ((sanitizeCore s).data.take 200).length := by rw [List.length_reverse]
          _ ≤ 200 := List.length_take_le _ _
    · intro hr
      rw [hform, if_neg hr]

/-- Closed instance of the amended C7. -/
theorem sanitize_filename_spec_witness :
    sanitize_filename "   " = "Unknown" ∧ (sanitize_filename truncCex).length ≤ 200 :=
  ⟨sanitize_filename_spec.2.1 "   " (by decide),
   (sanitize_filename_spec.2.2 truncCex (by decide)).1⟩

/-! ## C1 — the single-active-download invariant -/

/-- **C1**: when a media item already has an attempt in SENT or
DOWNLOADING status, `initiate_download` fails with the active-download
error and the store — in particular the set of attempts for the media —
is unchanged. -/
theorem initiate_download_blocked_by_active (env : DownloadEnv) (db : Db)
    (media : Media) (result : SearchResult) (a : DownloadAttempt)
    (ha : a ∈ db.attempts) (hct : a.content_type = media.mtype)
    (hoid : a.object_id = media.mid)
    (hst : a.status = AttemptStatus.sent ∨ a.status = AttemptStatus.downloading) :
    initiate_download env db media result =
      (db, Except.error "Media already has an active download. Please delete the existing download attempt first.") := by
  have hact : (db.attempts.any fun a =>
      a.content_type == media.mtype && a.object_id == media.mid &&
        (a.status == AttemptStatus.sent || a.status == AttemptStatus.downloading)) = true := by
    rw [List.any_eq_true]
    refine ⟨a, ha, ?_⟩
    rcases hst with h | h <;> simp [hct, hoid, h]
  unfold initiate_download
  rw [hact]
  simp

/-- Closed instance of C1. -/
theorem initiate_download_blocked_by_active_witness :
    initiate_download envTriv
        { medias := [mediaDune], attempts := [attemptActive], blacklist := [],
          configs := [cfgSab], pconfigs := [], nextAttemptId := 2 } mediaDune resultDune =
      ({ medias := [mediaDune], attempts := [attemptActive], blacklist := [],
         configs := [cfgSab], pconfigs := [], nextAttemptId := 2 },
       Except.error "Media already has an active download. Please delete the existing download attempt first.") :=
  initiate_download_blocked_by_active envTriv _ mediaDune resultDune attemptActive
    (by simp) (by decide) (by decide) (Or.inr (by decide))

/-! ## C9 — localhost rewriting in `_resolve_download_url` -/

/-- **C9**: when the search result's download URL starts with
`http://localhost` or `https://localhost`, the URL handed to the download
client is the result URL with its first `localhost` replaced by
`prowlarr` — never the result's own URL, which it always differs from. -/
theorem resolve_download_url_rewrites_localhost (env : DownloadEnv)
    (result : SearchResult) (rest : List Char)
    (h : result.download_url = ⟨"http://localhost".data ++ rest⟩ ∨
         result.download_url = ⟨"https://localhost".data ++ rest⟩) :
    resolve_download_url env result =
      .ok (replaceFirst result.download_url "localhost" "prowlarr") ∧
    replaceFirst result.download_url "localhost" "prowlarr" ≠ result.download_url := by
  obtain ⟨g, t, ix, iid, sz, pd, se, pe, pr, du, iu⟩ := result
  simp only at h
  rcases h with h | h <;> subst h
  · refine ⟨rfl, ?_⟩
    rw [show replaceFirst (⟨"http://localhost".data ++ rest⟩ : String) "localhost" "prowlarr" =
      ⟨"http://prowlarr".data ++ rest⟩ from rfl]
    intro hEq
    have hlen := congrArg (fun s : String => s.data.length) hEq
    simp only [List.length_append] at hlen
    rw [show ("http://prowlarr".data).length = 15 from rfl,
        show ("http://localhost".data).length = 16 from rfl] at hlen
    omega
  · refine ⟨rfl, ?_⟩
    rw [show replaceFirst (⟨"https://localhost".data ++ rest⟩ : String) "localhost" "prowlarr" =
      ⟨"https://prowlarr".data ++ rest⟩ from rfl]
    intro hEq
    have hlen := congrArg (fun s : String => s.data.length) hEq
    simp only [List.length_append] at hlen
    rw [show ("https://prowlarr".data).length = 16 from rfl,
        show ("https://localhost".data).length = 17 from rfl] at hlen
    omega

/-- Closed instance of C9. -/
theorem resolve_download_url_rewrites_localhost_witness :
    resolve_download_url envTriv { resultDune with download_url := "http://localhost:9696/dl" } =
      .ok (replaceFirst "http://localhost:9696/dl" "localhost" "prowlarr") ∧
    replaceFirst "http://localhost:9696/dl" "localhost" "prowlarr" ≠ "http://localhost:9696/dl" :=
  resolve_download_url_rewrites_localhost envTriv _ (":9696/dl".data) (Or.inl rfl)

/-! ## C10 — blacklisting with a pre-existing entry -/

/-- **C10**: when a blacklist entry for the attempt's
`(media, indexer, indexer_id)` tuple already exists, `mark_as_blacklisted`
leaves the blacklist table — hence the existing entry's reason,
reason_details, release_title and download_url — unchanged, while still
setting the attempt's status to BLACKLISTED. -/
theorem mark_as_blacklisted_keeps_existing_entry (db : Db) (attemptId : Nat)
    (reason reason_details : String) (a : DownloadAttempt) (m : Media) (b : DownloadBlacklist)
    (hfind : findAttempt db attemptId = some a)
    (hm : findMedia db a.content_type a.object_id = some m)
    (hb : b ∈ db.blacklist) (h1 : b.content_type = a.content_type)
    (h2 : b.object_id = a.object_id) (h3 : b.indexer = a.indexer)
    (h4 : b.indexer_id = a.indexer_id) :
    (mark_as_blacklisted db attemptId reason reason_details).1.blacklist = db.blacklist ∧
    findAttempt (mark_as_blacklisted db attemptId reason reason_details).1 attemptId =
      some { a with status := AttemptStatus.blacklisted } ∧
    (mark_as_blacklisted db attemptId reason reason_details).2 = .ok () := by
  have hexists : (db.blacklist.any fun x =>
      x.content_type == a.content_type && x.object_id == a.object_id &&
        x.indexer == a.indexer && x.indexer_id == a.indexer_id) = true := by
    rw [List.any_eq_true]
    exact ⟨b, hb, by simp [h1, h2, h3, h4]⟩
  unfold mark_as_blacklisted
  rw [hfind]
  dsimp only
  rw [hm]
  dsimp only
  rw [hexists, if_pos rfl]
  refine ⟨rfl, ?_, rfl⟩
  exact findAttempt_saveAttempt db attemptId a _ hfind rfl

/-! ## C5 — idempotent reconciliation of a completed job -/

/-- **C5**: with the remote job reporting `"Completed"` (with a final
path), the first refresh sets the attempt to DOWNLOADED with the path
recorded and the media to DOWNLOADED, and a second refresh against the
unchanged remote status returns the state unchanged — the status fields
are mutated exactly once. -/
theorem get_download_status_completed_idempotent (env : DownloadEnv) (db : Db)
    (attemptId : Nat) (a : DownloadAttempt) (m : Media) (js : JobStatus) (p : String)
    (hfind : findAttempt db attemptId = some a)
    (hclient : a.download_client ≠ none)
    (hid : (a.download_client_download_id == "") = false)
    (hjob : env.getJobStatus a.download_client_download_id = .ok (some js))
    (hcompleted : js.status = "Completed")
    (hpath : js.path = some p) (hp : (p == "") = false)
    (hnot : a.status ≠ AttemptStatus.downloaded)
    (hm : findMedia db a.content_type a.object_id = some m) :
    get_download_status env db attemptId =
      (saveMediaStatus (saveAttempt db
          { a with status := AttemptStatus.downloaded, error_type := "", error_reason := "",
                   raw_file_path := p })
        a.content_type a.object_id MediaStatus.downloaded,
       .ok { a with status := AttemptStatus.downloaded, error_type := "", error_reason := "",
                    raw_file_path := p }) ∧
    findMedia (get_download_status env db attemptId).1 a.content_type a.object_id =
      some { m with status := MediaStatus.downloaded } ∧
    get_download_status env (get_download_status env db attemptId).1 attemptId =
      ((get_download_status env db attemptId).1,
       .ok { a with status := AttemptStatus.downloaded, error_type := "", error_reason := "",
                    raw_file_path := p }) := by
  have hclientF : (a.download_client == none) = false := beq_eq_false_iff_ne.mpr hclient
  have hnotT : (a.status != AttemptStatus.downloaded) = true := by
    simp [bne_iff_ne, hnot]
  have hmain : get_download_status env db attemptId =
      (saveMediaStatus (saveAttempt db
          { a with status := AttemptStatus.downloaded, error_type := "", error_reason := "",
                   raw_file_path := p })
        a.content_type a.object_id MediaStatus.downloaded,
       .ok { a with status := AttemptStatus.downloaded, error_type := "", error_reason := "",
                    raw_file_path := p }) := by
    unfold get_download_status
    rw [hfind]
    dsimp only
    rw [hclientF, if_neg (by simp), hid, if_neg (by simp), hjob]
    dsimp only
    rw [hcompleted, if_pos (by decide), hnotT, if_pos rfl, hpath]
    dsimp only
    rw [hp, if_neg (by simp)]
    rw [show findMedia (saveAttempt db
        { a with status := AttemptStatus.downloaded, error_type := "", error_reason := "",
                 raw_file_path := p }) a.content_type a.object_id =
      findMedia db a.content_type a.object_id from rfl, hm]
  have hm' : findMedia (saveAttempt db
      { a with status := AttemptStatus.downloaded, error_type := "", error_reason := "",
               raw_file_path := p }) a.content_type a.object_id = some m := hm
  refine ⟨hmain, ?_, ?_⟩
  · rw [hmain]
    exact findMedia_saveMediaStatus _ _ _ m _ hm'
  · rw [hmain]
    have hfind2 : findAttempt
        (saveMediaStatus (saveAttempt db
            { a with status := AttemptStatus.downloaded, error_type := "", error_reason := "",
                     raw_file_path := p })
          a.content_type a.object_id MediaStatus.downloaded) attemptId =
        some { a with status := AttemptStatus.downloaded, error_type := "", error_reason := "",
                      raw_file_path := p } := by
      show findAttempt (saveAttempt db
          { a with status := AttemptStatus.downloaded, error_type := "", error_reason := "",
                   raw_file_path := p }) attemptId = _
      exact findAttempt_saveAttempt db attemptId a _ hfind rfl
    unfold get_download_status
    rw [hfind2]
    dsimp only
    rw [hclientF, if_neg (by simp), hid, if_neg (by simp), hjob]
    dsimp only
    rw [hcompleted, if_pos (by decide)]
    rw [if_neg (by simp)]

/-- A sample attempt in SENT state for `mediaDune`. -/
def attemptSent : DownloadAttempt :=
  { attemptActive with status := AttemptStatus.sent }

/-- A completed remote job for that attempt. -/
def jsCompleted : JobStatus :=
  { nzo_id := "nzo1", filename := "Dune", status := "Completed", timeleft := "",
    path := some "/dl/Dune.epub" }

/-- An oracle environment whose job lookup reports `jsCompleted`. -/
def envCompleted : DownloadEnv :=
  { envTriv with getJobStatus := fun _ => .ok (some jsCompleted) }

/-- A store holding `mediaDune` with the SENT attempt. -/
def dbSent : Db :=
  { medias := [mediaDune], attempts := [attemptSent], blacklist := [], configs := [cfgSab],
    pconfigs := [], nextAttemptId := 2 }

/-- The attempt row after the completed refresh. -/
def attemptDone : DownloadAttempt :=
  { attemptSent with status := AttemptStatus.downloaded, error_type := "", error_reason := "",
                     raw_file_path := "/dl/Dune.epub" }

/-- Closed instance of C5. -/
theorem get_download_status_completed_idempotent_witness :
    get_download_status envCompleted dbSent 1 =
      (saveMediaStatus (saveAttempt dbSent attemptDone) MType.book 1 MediaStatus.downloaded,
       .ok attemptDone) ∧
    findMedia (get_download_status envCompleted dbSent 1).1 MType.book 1 =
      some { mediaDune with status := MediaStatus.downloaded } ∧
    get_download_status envCompleted (get_download_status envCompleted dbSent 1).1 1 =
      ((get_download_status envCompleted dbSent 1).1, .ok attemptDone) :=
  get_download_status_completed_idempotent envCompleted dbSent 1 attemptSent mediaDune
    jsCompleted "/dl/Dune.epub" (by decide) (by decide) (by decide) rfl rfl rfl
    (by decide) (by decide) (by decide)

/-- A pre-existing blacklist entry for `attemptActive`'s tuple. -/
def blEntry : DownloadBlacklist :=
  { content_type := .book, object_id := 1, indexer := "idx", indexer_id := "5",
    release_title := "Dune (older rip)", download_url := "http://example.com/old.nzb",
    reason := "corrupted", reason_details := "bad archive" }

/-! ## C8 — idempotence of the organization stage -/

/-- Oracles for the C8 counterexample: discovery unused, sidecar and
cover best-effort steps fail (and are skipped). -/
def env8 : ProcessEnv :=
  { findDownloadedFile := fun _ _ _ _ => .error "unused"
    generateOpf := fun _ => .error "no opf"
    downloadCover := fun _ => .error "no cover" }

/-- A book whose title contains a dot. -/
def media8 : Media :=
  { mtype := .book, mid := 3, title := "v1.2", authors := ["A"], status := .downloaded,
    cover_url := "", library_path := "", cover_path := "" }

/-- Its downloaded attempt, whose raw file has no extension. -/
def attempt8 : DownloadAttempt :=
  { aid := 9, content_type := .book, object_id := 3, indexer := "idx", indexer_id := "5",
    release_title := "v1.2", download_url := "u", file_size := none, seeders := none,
    leechers := none, status := .downloaded, error_type := "", error_reason := "",
    download_client := none, download_client_download_id := "", raw_file_path := "/dl/book",
    post_processed_file_path := "", post_process_status := "" }

def cfg8 : ProcessingConfiguration :=
  { enabled := true, completed_downloads_path := "/dl", library_base_path := "/lib",
    calibre_ebook_convert_path := "" }

def fs8 : Fs := ⟨[("/lib", .dir), ("/dl/book", .file "X")]⟩

def db8 : Db :=
  { medias := [media8], attempts := [attempt8], blacklist := [], configs := [],
    pconfigs := [cfg8], nextAttemptId := 10 }

/-- **C8 counterexample**: organizing the extensionless source `/dl/book`
of the book titled `v1.2` succeeds with destination `/lib/A/v1.2/v1.2`,
but re-invoking the stage for the same attempt computes the suffix `.2`
from the recorded destination and succeeds with the *different* path
`/lib/A/v1.2/v1.2.2`, creating a duplicate copy of the file. -/
theorem organize_for_attempt_counterexample :
    (organize_to_library_for_attempt env8 db8 fs8 9).2.2 =
      .success "Successfully organized to library: /lib/A/v1.2/v1.2" ∧
    (organize_to_library_for_attempt env8
        (organize_to_library_for_attempt env8 db8 fs8 9).1
        (organize_to_library_for_attempt env8 db8 fs8 9).2.1 9).2.2 =
      .success "Successfully organized to library: /lib/A/v1.2/v1.2.2" ∧
    ((organize_to_library_for_attempt env8 db8 fs8 9).2.1).existsPath
        "/lib/A/v1.2/v1.2.2" = false ∧
    ((organize_to_library_for_attempt env8
        (organize_to_library_for_attempt env8 db8 fs8 9).1
        (organize_to_library_for_attempt env8 db8 fs8 9).2.1 9).2.1).existsPath
        "/lib/A/v1.2/v1.2.2" = true := by
  exact ⟨rfl, rfl, rfl, rfl⟩

/-! ## C4 — failures after the PENDING row exists -/

/-- **C4**: whenever the in-`try` part of `initiate_download` (URL
validation, URL resolution, submission) raises after the PENDING attempt
row was created, the new attempt row is left FAILED with
`error_type = "sabnzbd_error"` and the raised message as detail, the
media table — hence the media's status — is exactly as before the call,
and the wrapped `DownloadServiceError` is surfaced. -/
theorem initiate_download_failure_records_and_preserves_media (env : DownloadEnv)
    (db : Db) (media : Media) (result : SearchResult)
    (cfg : DownloadClientConfiguration) (e : String)
    (hnoactive : (db.attempts.any fun a =>
      a.content_type == media.mtype && a.object_id == media.mid &&
        (a.status == AttemptStatus.sent || a.status == AttemptStatus.downloading)) = false)
    (hcfg : pickDownloadClientConfig db = some cfg)
    (hfresh : ∀ a ∈ db.attempts, (a.aid == db.nextAttemptId) = false)
    (hfail : initiateInner env media result = .error e) :
    initiate_download env db media result =
      ({ db with
           attempts := db.attempts ++
             [{ pendingAttempt db media result cfg with
                  status := AttemptStatus.failed, error_type := "sabnzbd_error",
                  error_reason := e }],
           nextAttemptId := db.nextAttemptId + 1 },
       Except.error ("Failed to initiate download: " ++ e)) := by
  unfold initiate_download
  rw [hnoactive]
  dsimp only [Bool.false_eq_true, if_false]
  rw [hcfg]
  dsimp only
  rw [hfail]
  dsimp only
  unfold saveAttempt
  have hupd := updateBy_append_single
    (fun b => b.aid == ({ pendingAttempt db media result cfg with
        status := AttemptStatus.failed, error_type := "sabnzbd_error",
        error_reason := e } : DownloadAttempt).aid)
    ({ pendingAttempt db media result cfg with
        status := AttemptStatus.failed, error_type := "sabnzbd_error",
        error_reason := e } : DownloadAttempt)
    (pendingAttempt db media result cfg) db.attempts
    (by
      intro y hy
      simpa [pendingAttempt] using hfresh y hy)
    (by simp [pendingAttempt])
  simp only [pendingAttempt] at hupd ⊢
  rw [hupd, if_neg (by simp)]

/-- Closed instance of C4 (the spec's own scenario: a torrent result
against the usenet-only client). -/
theorem initiate_download_failure_records_and_preserves_media_witness :
    initiate_download envTriv
        { medias := [mediaDune], attempts := [], blacklist := [], configs := [cfgSab],
          pconfigs := [], nextAttemptId := 1 } mediaDune
        { resultDune with protocol := "torrent" } =
      ({ medias := [mediaDune],
         attempts := [{ pendingAttempt
             { medias := [mediaDune], attempts := [], blacklist := [], configs := [cfgSab],
               pconfigs := [], nextAttemptId := 1 } mediaDune
             { resultDune with protocol := "torrent" } cfgSab with
               status := AttemptStatus.failed, error_type := "sabnzbd_error",
               error_reason := "SABnzbd only supports Usenet downloads (protocol: torrent)" }],
         blacklist := [], configs := [cfgSab], pconfigs := [], nextAttemptId := 2 },
       Except.error "Failed to initiate download: SABnzbd only supports Usenet downloads (protocol: torrent)") :=
  initiate_download_failure_records_and_preserves_media envTriv _ mediaDune
    { resultDune with protocol := "torrent" } cfgSab
    "SABnzbd only supports Usenet downloads (protocol: torrent)"
    (by decide) (by decide) (by simp) rfl

/-- Closed instance of C10. -/
theorem mark_as_blacklisted_keeps_existing_entry_witness :
    (mark_as_blacklisted
        { medias := [mediaDune], attempts := [attemptActive], blacklist := [blEntry],
          configs := [], pconfigs := [], nextAttemptId := 2 } 1 "manual" "dup").1.blacklist =
      [blEntry] ∧
    findAttempt (mark_as_blacklisted
        { medias := [mediaDune], attempts := [attemptActive], blacklist := [blEntry],
          configs := [], pconfigs := [], nextAttemptId := 2 } 1 "manual" "dup").1 1 =
      some { attemptActive with status := AttemptStatus.blacklisted } ∧
    (mark_as_blacklisted
        { medias := [mediaDune], attempts := [attemptActive], blacklist := [blEntry],
          configs := [], pconfigs := [], nextAttemptId := 2 } 1 "manual" "dup").2 = .ok () :=
  mark_as_blacklisted_keeps_existing_entry _ 1 "manual" "dup" attemptActive mediaDune blEntry
    (by decide) (by decide) (by simp) (by decide) (by decide) (by decide) (by decide)

/-! ## C8 — idempotence of the organization stage (amended) -/

/-- `findMedia` only reads the media table, which `saveAttempt` leaves alone. -/
theorem findMedia_saveAttempt (db : Db) (a : DownloadAttempt) (ct : MType) (oid : Nat) :
    findMedia (saveAttempt db a) ct oid = findMedia db ct oid := rfl

/-- A row found by `findMedia` carries the looked-up key. -/
theorem findMedia_keys (db : Db) (ct : MType) (oid : Nat) (m : Media)
    (h : findMedia db ct oid = some m) : m.mtype = ct ∧ m.mid = oid := by
  unfold findMedia at h
  have := List.find?_some h
  simpa using this

/-- Joining a nonempty relative component onto a clean directory moves
strictly below it. -/
theorem pathJoin_ne_left (a b : String) (hb : strStartsWith b "/" = false)
    (ha : a ≠ "") (hae : strEndsWith a "/" = false) :
    pathJoin a b ≠ a := by
  rw [pathJoin_expand a b hb ha hae]
  refine str_ne_of_data_longer _ _ ?_
  simp

/-- The sidecar paths `library_dir/(title ++ ext)` never collide with the
library directory itself. -/
theorem orgSidecar_ne_lib (lib t2 ext : String) (hlibne : lib ≠ "")
    (hlibend : strEndsWith lib "/" = false)
    (ht2ns : '/' ∉ t2.data) (hextns : '/' ∉ ext.data) (hextne : ext ≠ "") :
    pathJoin lib (t2 ++ ext) ≠ lib := by
  refine pathJoin_ne_left _ _ ?_ hlibne hlibend
  refine strStartsWith_slash_false _ ?_ ?_
  · intro hc
    have h2 := congrArg String.data hc
    rw [String.data_append] at h2
    exact (data_ne_nil_of_ne_empty _ hextne) (List.append_eq_nil.mp h2).2
  · intro hmem
    rw [String.data_append] at hmem
    rcases List.mem_append.mp hmem with h | h
    · exact ht2ns h
    · exact hextns h

/-- `Path(libdir/(title.ext)).stem = title` for a dot-free extension tail. -/
theorem pathStem_dest (libdir title' : String) (r : List Char)
    (htitle : title' ≠ "") (hts : '/' ∉ title'.data)
    (hdot : '.' ∉ r) (hr : r ≠ []) (hslash : '/' ∉ r) :
    pathStem ⟨libdir.data ++ '/' :: (title'.data ++ '.' :: r)⟩ = title' := by
  have hnos : '/' ∉ title'.data ++ '.' :: r := by
    intro hmem
    rcases List.mem_append.mp hmem with h | h
    · exact hts h
    · rw [List.mem_cons] at h
      rcases h with h | h
      · exact absurd h (by decide)
      · exact hslash h
  unfold pathStem
  dsimp only
  rw [pathBasename_append libdir.data (title'.data ++ '.' :: r) hnos]
  rw [suffixOfName_append title' r hdot hr htitle]
  show (⟨(title'.data ++ '.' :: r).take
    ((title'.data ++ '.' :: r).length - ('.' :: r).length)⟩ : String) = title'
  have hlen : (title'.data ++ '.' :: r).length - ('.' :: r).length = title'.data.length := by
    simp
  rw [hlen, List.take_left]

/-- `findMedia` after the final two saves of the organization stage
returns the saved media row. -/
theorem findMedia_after_saves (db : Db) (a' : DownloadAttempt) (ct : MType) (oid : Nat)
    (m m' : Media) (hfind : findMedia db ct oid = some m)
    (h1 : m'.mtype = ct) (h2 : m'.mid = oid) :
    findMedia (saveAttempt (saveMedia db m') a') ct oid = some m' := by
  rw [findMedia_saveAttempt]
  exact findMedia_saveMedia_self db ct oid m m' hfind h1 h2

/-- Updating both recorded paths of a media row to their current values
is the identity. -/
theorem media_update_lib_cover_self (m : Media) (v w : String)
    (hv : m.library_path = v) (hw : m.cover_path = w) :
    ({ { m with library_path := v } with cover_path := w } : Media) = m := by
  cases m
  simp_all

set_option maxHeartbeats 1000000 in
/-- First successful run of the organization stage on a fresh raw file:
the exact result state, together with every fact about it that the
second run consumes. -/
theorem organize_for_attempt_fresh
    (env : ProcessEnv) (db : Db) (fs : Fs) (attemptId : Nat)
    (a : DownloadAttempt) (m : Media) (config : ProcessingConfiguration) (content : String)
    (hfind : findAttempt db attemptId = some a)
    (hm : findMedia db a.content_type a.object_id = some m)
    (hcfg : db.pconfigs.find? (fun c => c.enabled) = some config)
    (hpost : a.post_processed_file_path = "")
    (hraw : a.raw_file_path ≠ "")
    (hsrc : fs.lookup a.raw_file_path = some (FsEntry.file content))
    (hbase : fs.existsPath config.library_base_path = true)
    (hdir : fs.lookup (orgLibDir config m) = none)
    (hdest : fs.existsPath (orgDest config m (pathSuffix a.raw_file_path)) = false)
    (hext : pathSuffix a.raw_file_path ≠ "")
    (hopfm : (env.generateOpf m).isOk = true)
    (hcovm : (m.cover_url != "") = true → (env.downloadCover m.cover_url).isOk = true) :
    ∃ db₁ fs₁ a₁ m₁,
      organize_to_library_for_attempt env db fs attemptId =
        (db₁, fs₁, ServiceResult.success ("Successfully organized to library: " ++
          orgDest config m (pathSuffix a.raw_file_path))) ∧
      findAttempt db₁ attemptId = some a₁ ∧
      findMedia db₁ a.content_type a.object_id = some m₁ ∧
      db₁.pconfigs = db.pconfigs ∧
      a₁.content_type = a.content_type ∧
      a₁.object_id = a.object_id ∧
      a₁.post_processed_file_path = orgDest config m (pathSuffix a.raw_file_path) ∧
      m₁.title = m.title ∧
      m₁.authors = m.authors ∧
      m₁.cover_url = m.cover_url ∧
      m₁.library_path = orgDest config m (pathSuffix a.raw_file_path) ∧
      pathSuffix (orgDest config m (pathSuffix a.raw_file_path)) =
        pathSuffix a.raw_file_path ∧
      orgDest config m (pathSuffix a.raw_file_path) ≠ "" ∧
      fs₁.isFile (orgDest config m (pathSuffix a.raw_file_path)) = true ∧
      fs₁.existsPath config.library_base_path = true ∧
      fs₁.lookup (orgLibDir config m) = some FsEntry.dir ∧
      fs₁.existsPath (pathJoin (pathParent (orgDest config m (pathSuffix a.raw_file_path)))
        (pathStem (orgDest config m (pathSuffix a.raw_file_path)) ++ ".opf")) = true ∧
      ((m.cover_url != "") = true →
        fs₁.existsPath (pathJoin (pathParent (orgDest config m (pathSuffix a.raw_file_path)))
          (pathStem (orgDest config m (pathSuffix a.raw_file_path)) ++ ".jpg")) = true ∧
        m₁.cover_path = pathJoin (pathParent (orgDest config m (pathSuffix a.raw_file_path)))
          (pathStem (orgDest config m (pathSuffix a.raw_file_path)) ++ ".jpg")) ∧
      (∀ x ∈ db₁.medias, (x.mtype == m₁.mtype && x.mid == m₁.mid) = true → x = m₁) ∧
      (∀ x ∈ db₁.attempts, (x.aid == a₁.aid) = true → x = a₁) := by
  unfold orgLibDir at hdir
  unfold orgDest orgLibDir orgTitle at hdest
  unfold orgDest orgLibDir orgTitle
  have hex_raw : fs.existsPath a.raw_file_path = true := by
    unfold Fs.existsPath
    rw [hsrc]
    rfl
  have hnd_raw : fs.isDir a.raw_file_path = false := by
    unfold Fs.isDir
    rw [hsrc]
  obtain ⟨r, hextEq, hdotr, hrne, hsr⟩ := pathSuffix_structure a.raw_file_path hext
  obtain ⟨htne, htns⟩ := libtitle_ok config.library_base_path (orgAuthor m) m.title
  have hfst := get_library_path_fst config.library_base_path (orgAuthor m) m.title
  obtain ⟨pre, hpre⟩ := pathJoin_data_ends
    (pathJoin config.library_base_path
      (if ((orgAuthor m) != "") = true then sanitize_filename (orgAuthor m)
       else "Unknown Author"))
    (get_library_path config.library_base_path (orgAuthor m) m.title).2
  have hlibdata : (get_library_path config.library_base_path (orgAuthor m) m.title).1.data =
      pre ++ (get_library_path config.library_base_path (orgAuthor m) m.title).2.data := by
    rw [hfst]
    exact hpre
  have hlibne : (get_library_path config.library_base_path (orgAuthor m) m.title).1 ≠ "" := by
    intro hc
    have h2 := congrArg String.data hc
    rw [hlibdata] at h2
    exact (data_ne_nil_of_ne_empty _ htne) (List.append_eq_nil.mp h2).2
  have hlibend : strEndsWith
      (get_library_path config.library_base_path (orgAuthor m) m.title).1 "/" = false := by
    rw [hfst]
    exact strEndsWith_slash_false _ _ pre hpre htne htns
  have hfdata : ((get_library_path config.library_base_path (orgAuthor m) m.title).2 ++
      pathSuffix a.raw_file_path).data =
      (get_library_path config.library_base_path (orgAuthor m) m.title).2.data ++
        '.' :: r := by
    rw [hextEq]
    simp
  have hfne : ((get_library_path config.library_base_path (orgAuthor m) m.title).2 ++
      pathSuffix a.raw_file_path) ≠ "" := by
    intro hc
    have h2 := congrArg String.data hc
    rw [hfdata] at h2
    exact (data_ne_nil_of_ne_empty _ htne) (List.append_eq_nil.mp h2).1
  have hfns : '/' ∉ ((get_library_path config.library_base_path (orgAuthor m) m.title).2 ++
      pathSuffix a.raw_file_path).data := by
    rw [hfdata]
    intro hmem
    rcases List.mem_append.mp hmem with h | h
    · exact htns h
    · rw [List.mem_cons] at h
      rcases h with h | h
      · exact absurd h (by decide)
      · exact hsr h
  have hfstart := strStartsWith_slash_false _ hfne hfns
  have hdesteq : pathJoin (get_library_path config.library_base_path (orgAuthor m) m.title).1
      ((get_library_path config.library_base_path (orgAuthor m) m.title).2 ++
        pathSuffix a.raw_file_path) =
      (get_library_path config.library_base_path (orgAuthor m) m.title).1 ++ "/" ++
      ((get_library_path config.library_base_path (orgAuthor m) m.title).2 ++
        pathSuffix a.raw_file_path) :=
    pathJoin_expand _ _ hfstart hlibne hlibend
  have hdestdata : (pathJoin (get_library_path config.library_base_path (orgAuthor m) m.title).1
      ((get_library_path config.library_base_path (orgAuthor m) m.title).2 ++
        pathSuffix a.raw_file_path)).data =
      (get_library_path config.library_base_path (orgAuthor m) m.title).1.data ++
        '/' :: ((get_library_path config.library_base_path (orgAuthor m) m.title).2.data ++
          '.' :: r) := by
    rw [hdesteq]
    show ((get_library_path config.library_base_path (orgAuthor m) m.title).1.data ++ ['/']) ++
      ((get_library_path config.library_base_path (orgAuthor m) m.title).2 ++
        pathSuffix a.raw_file_path).data = _
    rw [hfdata]
    simp
  have hdl : pathJoin (get_library_path config.library_base_path (orgAuthor m) m.title).1
      ((get_library_path config.library_base_path (orgAuthor m) m.title).2 ++
        pathSuffix a.raw_file_path) ≠
      (get_library_path config.library_base_path (orgAuthor m) m.title).1 := by
    refine str_ne_of_data_longer _ _ ?_
    rw [hdestdata]
    simp
  have hdest_ne : pathJoin (get_library_path config.library_base_path (orgAuthor m) m.title).1
      ((get_library_path config.library_base_path (orgAuthor m) m.title).2 ++
        pathSuffix a.raw_file_path) ≠ "" := by
    refine str_ne_of_data_longer _ _ ?_
    rw [hdestdata]
    simp
  have hlraw : (get_library_path config.library_base_path (orgAuthor m) m.title).1 ≠
      a.raw_file_path := by
    intro hc
    rw [hc] at hdir
    rw [hdir] at hsrc
    exact Option.noConfusion hsrc
  have hDmk : pathJoin (get_library_path config.library_base_path (orgAuthor m) m.title).1
      ((get_library_path config.library_base_path (orgAuthor m) m.title).2 ++
        pathSuffix a.raw_file_path) =
      ⟨(get_library_path config.library_base_path (orgAuthor m) m.title).1.data ++
        '/' :: ((get_library_path config.library_base_path (orgAuthor m) m.title).2.data ++
          '.' :: r)⟩ :=
    string_eq_of_data _ _ hdestdata
  have hfnoslash : '/' ∉
      (get_library_path config.library_base_path (orgAuthor m) m.title).2.data ++ '.' :: r := by
    rw [← hfdata]
    exact hfns
  have hparent : pathParent (pathJoin
      (get_library_path config.library_base_path (orgAuthor m) m.title).1
      ((get_library_path config.library_base_path (orgAuthor m) m.title).2 ++
        pathSuffix a.raw_file_path)) =
      (get_library_path config.library_base_path (orgAuthor m) m.title).1 := by
    rw [hDmk]
    exact pathParent_append _ _ hfnoslash (data_ne_nil_of_ne_empty _ hlibne)
  have hstem : pathStem (pathJoin
      (get_library_path config.library_base_path (orgAuthor m) m.title).1
      ((get_library_path config.library_base_path (orgAuthor m) m.title).2 ++
        pathSuffix a.raw_file_path)) =
      (get_library_path config.library_base_path (orgAuthor m) m.title).2 := by
    rw [hDmk]
    exact pathStem_dest _ _ r htne htns hdotr hrne hsr
  have hsfx : pathSuffix (pathJoin
      (get_library_path config.library_base_path (orgAuthor m) m.title).1
      ((get_library_path config.library_base_path (orgAuthor m) m.title).2 ++
        pathSuffix a.raw_file_path)) = pathSuffix a.raw_file_path := by
    rw [hDmk, pathSuffix_dest _ _ r htne htns hdotr hrne hsr, hextEq]
  have hopfD : pathJoin (pathParent (pathJoin
      (get_library_path config.library_base_path (orgAuthor m) m.title).1
      ((get_library_path config.library_base_path (orgAuthor m) m.title).2 ++
        pathSuffix a.raw_file_path)))
      (pathStem (pathJoin
        (get_library_path config.library_base_path (orgAuthor m) m.title).1
        ((get_library_path config.library_base_path (orgAuthor m) m.title).2 ++
          pathSuffix a.raw_file_path)) ++ ".opf") ≠
      (get_library_path config.library_base_path (orgAuthor m) m.title).1 := by
    rw [hparent, hstem]
    exact orgSidecar_ne_lib _ _ ".opf" hlibne hlibend htns (by decide) (by decide)
  have hjpgD : pathJoin (pathParent (pathJoin
      (get_library_path config.library_base_path (orgAuthor m) m.title).1
      ((get_library_path config.library_base_path (orgAuthor m) m.title).2 ++
        pathSuffix a.raw_file_path)))
      (pathStem (pathJoin
        (get_library_path config.library_base_path (orgAuthor m) m.title).1
        ((get_library_path config.library_base_path (orgAuthor m) m.title).2 ++
          pathSuffix a.raw_file_path)) ++ ".jpg") ≠
      (get_library_path config.library_base_path (orgAuthor m) m.title).1 := by
    rw [hparent, hstem]
    exact orgSidecar_ne_lib _ _ ".jpg" hlibne hlibend htns (by decide) (by decide)
  by_cases hurl : (m.cover_url != "") = true
  · obtain ⟨cc, hcc⟩ := except_isOk_exists _ (hcovm hurl)
    unfold organize_to_library_for_attempt
    rw [hfind]
    dsimp only
    rw [hm]
    dsimp only
    rw [hcfg]
    dsimp only
    rw [hpost]
    rw [show (("" : String) != "" && fs.existsPath "") = false from by simp]
    rw [if_neg (by simp)]
    rw [show (a.raw_file_path != "" && fs.existsPath a.raw_file_path) = true from by
      rw [hex_raw]; simp [hraw]]
    rw [if_pos rfl]
    dsimp only
    rw [hnd_raw]
    rw [if_neg (by simp)]
    rw [organize_to_library_fresh fs a.raw_file_path config.library_base_path (orgAuthor m)
      m.title content hsrc hbase hdir hdest hlraw hdl]
    dsimp only
    rw [if_pos hurl]
    rw [downloadCoverStep_of_ok env m _ _ cc hcc]
    dsimp only
    refine ⟨_, _, _, _, rfl,
      findAttempt_saveAttempt _ attemptId a _ hfind rfl,
      findMedia_after_saves db _ a.content_type a.object_id m _ hm
        (findMedia_keys db _ _ m hm).1 (findMedia_keys db _ _ m hm).2,
      rfl, rfl, rfl, rfl, rfl, rfl, rfl, rfl, hsfx, hdest_ne,
      isFile_write_of _ _ _ _ (writeOpf_isFile_of _ _ _ _ _ (isFile_write_self _ _ _)),
      existsPath_write_of _ _ _ _ (writeOpf_existsPath_of _ _ _ _ _
        (existsPath_write_of _ _ _ _ (existsPath_addEntry_of _ _ _ _ hbase))),
      ?_,
      existsPath_write_of _ _ _ _
        (writeOpf_existsPath_self_of_ok _ _ _ _ hopfm),
      fun _ => ⟨existsPath_write_self _ _ _, ?_⟩,
      fun x hx => forall_mem_updateBy _ _ _ x hx,
      fun x hx => forall_mem_updateBy _ _ _ x hx⟩
    · rw [lookup_write_other _ _ _ _ (Ne.symm hjpgD)]
      rw [writeOpf_lookup_other env m _ _ _ (Ne.symm hopfD)]
      rw [lookup_write_other _ _ _ _ (Ne.symm hdl)]
      exact lookup_addEntry_self fs _ FsEntry.dir hdir
    · with_reducible rfl
  · unfold organize_to_library_for_attempt
    rw [hfind]
    dsimp only
    rw [hm]
    dsimp only
    rw [hcfg]
    dsimp only
    rw [hpost]
    rw [show (("" : String) != "" && fs.existsPath "") = false from by simp]
    rw [if_neg (by simp)]
    rw [show (a.raw_file_path != "" && fs.existsPath a.raw_file_path) = true from by
      rw [hex_raw]; simp [hraw]]
    rw [if_pos rfl]
    dsimp only
    rw [hnd_raw]
    rw [if_neg (by simp)]
    rw [organize_to_library_fresh fs a.raw_file_path config.library_base_path (orgAuthor m)
      m.title content hsrc hbase hdir hdest hlraw hdl]
    dsimp only
    rw [if_neg hurl]
    dsimp only
    refine ⟨_, _, _, _, rfl,
      findAttempt_saveAttempt _ attemptId a _ hfind rfl,
      findMedia_after_saves db _ a.content_type a.object_id m _ hm
        (findMedia_keys db _ _ m hm).1 (findMedia_keys db _ _ m hm).2,
      rfl, rfl, rfl, rfl, rfl, rfl, rfl, rfl, hsfx, hdest_ne,
      writeOpf_isFile_of _ _ _ _ _ (isFile_write_self _ _ _),
      writeOpf_existsPath_of _ _ _ _ _
        (existsPath_write_of _ _ _ _ (existsPath_addEntry_of _ _ _ _ hbase)),
      ?_,
      writeOpf_existsPath_self_of_ok _ _ _ _ hopfm,
      fun h => absurd h hurl,
      fun x hx => forall_mem_updateBy _ _ _ x hx,
      fun x hx => forall_mem_updateBy _ _ _ x hx⟩
    · rw [writeOpf_lookup_other env m _ _ _ (Ne.symm hopfD)]
      rw [lookup_write_other _ _ _ _ (Ne.symm hdl)]
      exact lookup_addEntry_self fs _ FsEntry.dir hdir

set_option maxHeartbeats 1000000 in
/-- Re-running the organization stage on a state where the destination is
already in place, already recorded on the attempt and the media, and the
sidecars already exist: the store is untouched and no path changes
existence. -/
theorem organize_for_attempt_rerun
    (env : ProcessEnv) (db' : Db) (fs' : Fs) (attemptId : Nat)
    (a' : DownloadAttempt) (m' : Media) (config : ProcessingConfiguration)
    (hfind' : findAttempt db' attemptId = some a')
    (hm' : findMedia db' a'.content_type a'.object_id = some m')
    (hcfg' : db'.pconfigs.find? (fun c => c.enabled) = some config)
    (hpostne : a'.post_processed_file_path ≠ "")
    (hfile : fs'.isFile a'.post_processed_file_path = true)
    (hbase' : fs'.existsPath config.library_base_path = true)
    (hdir' : fs'.lookup (orgLibDir config m') = some FsEntry.dir)
    (hdesteq : orgDest config m' (pathSuffix a'.post_processed_file_path) =
      a'.post_processed_file_path)
    (hlibm : m'.library_path = a'.post_processed_file_path)
    (hopfex : fs'.existsPath (pathJoin (pathParent a'.post_processed_file_path)
      (pathStem a'.post_processed_file_path ++ ".opf")) = true)
    (hcovinfo : (m'.cover_url != "") = true →
      (env.downloadCover m'.cover_url).isOk = true ∧
      fs'.existsPath (pathJoin (pathParent a'.post_processed_file_path)
        (pathStem a'.post_processed_file_path ++ ".jpg")) = true ∧
      m'.cover_path = pathJoin (pathParent a'.post_processed_file_path)
        (pathStem a'.post_processed_file_path ++ ".jpg"))
    (hmed : ∀ x ∈ db'.medias, (x.mtype == m'.mtype && x.mid == m'.mid) = true → x = m')
    (hatt : ∀ x ∈ db'.attempts, (x.aid == a'.aid) = true → x = a') :
    ∃ fs₂,
      organize_to_library_for_attempt env db' fs' attemptId =
        (db', fs₂, ServiceResult.success ("Successfully organized to library: " ++
          a'.post_processed_file_path)) ∧
      ∀ p, fs₂.existsPath p = fs'.existsPath p := by
  unfold orgDest orgLibDir orgTitle at hdesteq
  unfold orgLibDir at hdir'
  unfold organize_to_library_for_attempt
  rw [hfind']
  dsimp only
  rw [hm']
  dsimp only
  rw [hcfg']
  dsimp only
  rw [show (a'.post_processed_file_path != "" &&
      fs'.existsPath a'.post_processed_file_path) = true from by
    rw [existsPath_of_isFile fs' _ hfile]; simp [hpostne]]
  rw [if_pos rfl]
  dsimp only
  rw [isDir_eq_false_of_isFile fs' _ hfile]
  rw [if_neg (by simp)]
  rw [organize_to_library_rerun fs' config.library_base_path (orgAuthor m') m'.title
    a'.post_processed_file_path hdesteq hfile hbase' hdir']
  dsimp only
  by_cases hurl' : (m'.cover_url != "") = true
  · obtain ⟨hcovok, hjpgex, hcovpath⟩ := hcovinfo hurl'
    obtain ⟨cc, hcc⟩ := except_isOk_exists _ hcovok
    rw [if_pos hurl']
    rw [downloadCoverStep_of_ok env m' _ _ cc hcc]
    dsimp only
    rw [media_update_lib_cover_self m' a'.post_processed_file_path _ hlibm hcovpath]
    rw [saveMedia_noop db' m' (updateBy_eq_self _ _ _ hmed)]
    rw [attempt_update_post_self a' _ rfl]
    rw [saveAttempt_noop db' a' (updateBy_eq_self _ _ _ hatt)]
    refine ⟨_, rfl, ?_⟩
    intro p
    rw [existsPath_write_existing _ _ _ _ (writeOpf_existsPath_of env m' _ _ _ hjpgex)]
    rw [writeOpf_existsPath_existing env m' _ _ _ hopfex]
  · rw [if_neg hurl']
    dsimp only
    rw [media_update_library_self m' a'.post_processed_file_path hlibm]
    rw [saveMedia_noop db' m' (updateBy_eq_self _ _ _ hmed)]
    rw [attempt_update_post_self a' _ rfl]
    rw [saveAttempt_noop db' a' (updateBy_eq_self _ _ _ hatt)]
    refine ⟨_, rfl, ?_⟩
    intro p
    rw [writeOpf_existsPath_existing env m' _ _ _ hopfex]

set_option maxHeartbeats 1000000 in
/-- **C8 (amended)**: for an attempt whose single raw source file has a
nonempty extension and has not been organized yet, when the best-effort
sidecar oracles succeed, running the organization stage twice succeeds
both times with the *same* destination path, the second run leaves the
store exactly as the first run left it, and the second run creates no
additional files (every path's existence is unchanged). -/
theorem organize_for_attempt_idempotent
    (env : ProcessEnv) (db : Db) (fs : Fs) (attemptId : Nat)
    (a : DownloadAttempt) (m : Media) (config : ProcessingConfiguration) (content : String)
    (hfind : findAttempt db attemptId = some a)
    (hm : findMedia db a.content_type a.object_id = some m)
    (hcfg : db.pconfigs.find? (fun c => c.enabled) = some config)
    (hpost : a.post_processed_file_path = "")
    (hraw : a.raw_file_path ≠ "")
    (hsrc : fs.lookup a.raw_file_path = some (FsEntry.file content))
    (hbase : fs.existsPath config.library_base_path = true)
    (hdir : fs.lookup (orgLibDir config m) = none)
    (hdest : fs.existsPath (orgDest config m (pathSuffix a.raw_file_path)) = false)
    (hext : pathSuffix a.raw_file_path ≠ "")
    (hopf : ∀ x, (env.generateOpf x).isOk = true)
    (hcov : ∀ u, (env.downloadCover u).isOk = true) :
    ∃ db₁ fs₁ fs₂,
      organize_to_library_for_attempt env db fs attemptId =
        (db₁, fs₁, ServiceResult.success ("Successfully organized to library: " ++
          orgDest config m (pathSuffix a.raw_file_path))) ∧
      organize_to_library_for_attempt env db₁ fs₁ attemptId =
        (db₁, fs₂, ServiceResult.success ("Successfully organized to library: " ++
          orgDest config m (pathSuffix a.raw_file_path))) ∧
      ∀ p, fs₂.existsPath p = fs₁.existsPath p := by
  obtain ⟨db₁, fs₁, a₁, m₁, heq1, hfind1, hm1, hpc1, hct1, hoid1, hpost1, hti1, hau1, hcu1,
    hlib1, hsfx1, hdne1, hfile1, hbase1, hdir1, hopf1, hcov1, hmed1, hatt1⟩ :=
    organize_for_attempt_fresh env db fs attemptId a m config content hfind hm hcfg hpost
      hraw hsrc hbase hdir hdest hext (hopf m) (fun _ => hcov m.cover_url)
  have hauth : orgAuthor m₁ = orgAuthor m := by
    unfold orgAuthor
    rw [hau1]
  have hgd : ∀ e, orgDest config m₁ e = orgDest config m e := by
    intro e
    unfold orgDest orgLibDir orgTitle
    rw [hauth, hti1]
  have hm1' : findMedia db₁ a₁.content_type a₁.object_id = some m₁ := by
    rw [hct1, hoid1]
    exact hm1
  have hcfg1 : db₁.pconfigs.find? (fun c => c.enabled) = some config := by
    rw [hpc1]
    exact hcfg
  have hpostne1 : a₁.post_processed_file_path ≠ "" := by
    rw [hpost1]
    exact hdne1
  have hfile1' : fs₁.isFile a₁.post_processed_file_path = true := by
    rw [hpost1]
    exact hfile1
  have hdir1' : fs₁.lookup (orgLibDir config m₁) = some FsEntry.dir := by
    have hld : orgLibDir config m₁ = orgLibDir config m := by
      unfold orgLibDir
      rw [hauth, hti1]
    rw [hld]
    exact hdir1
  have hdesteq1 : orgDest config m₁ (pathSuffix a₁.post_processed_file_path) =
      a₁.post_processed_file_path := by
    rw [hpost1, hgd, hsfx1]
  have hlibm1 : m₁.library_path = a₁.post_processed_file_path := by
    rw [hpost1]
    exact hlib1
  have hopfex1 : fs₁.existsPath (pathJoin (pathParent a₁.post_processed_file_path)
      (pathStem a₁.post_processed_file_path ++ ".opf")) = true := by
    rw [hpost1]
    exact hopf1
  have hcovinfo1 : (m₁.cover_url != "") = true →
      (env.downloadCover m₁.cover_url).isOk = true ∧
      fs₁.existsPath (pathJoin (pathParent a₁.post_processed_file_path)
        (pathStem a₁.post_processed_file_path ++ ".jpg")) = true ∧
      m₁.cover_path = pathJoin (pathParent a₁.post_processed_file_path)
        (pathStem a₁.post_processed_file_path ++ ".jpg") := by
    intro h
    have hmu : (m.cover_url != "") = true := by
      rw [← hcu1]
      exact h
    obtain ⟨hj, hcp⟩ := hcov1 hmu
    refine ⟨hcov m₁.cover_url, ?_, ?_⟩
    · rw [hpost1]
      exact hj
    · rw [hpost1]
      exact hcp
  obtain ⟨fs₂, heq2, hpres⟩ := organize_for_attempt_rerun env db₁ fs₁ attemptId a₁ m₁ config
    hfind1 hm1' hcfg1 hpostne1 hfile1' hbase1 hdir1' hdesteq1 hlibm1 hopfex1
    hcovinfo1 hmed1 hatt1
  refine ⟨db₁, fs₁, fs₂, heq1, ?_, hpres⟩
  rw [heq2, hpost1]

/-- The collaborators for the closed idempotence instance: both
best-effort oracles succeed deterministically. -/
def envIdem : ProcessEnv :=
  { findDownloadedFile := fun _ _ _ _ => .error "unused"
    generateOpf := fun _ => .ok "opf"
    downloadCover := fun _ => .ok "img" }

def mediaIdem : Media :=
  { mtype := .book, mid := 7, title := "Book", authors := ["Ann"], status := .downloaded,
    cover_url := "http://c/cover.jpg", library_path := "", cover_path := "" }

def attemptIdem : DownloadAttempt :=
  { aid := 1, content_type := .book, object_id := 7, indexer := "idx", indexer_id := "5",
    release_title := "Book", download_url := "u", file_size := none, seeders := none,
    leechers := none, status := .downloaded, error_type := "", error_reason := "",
    download_client := none, download_client_download_id := "",
    raw_file_path := "/dl/book.epub", post_processed_file_path := "",
    post_process_status := "" }

def cfgIdem : ProcessingConfiguration :=
  { enabled := true, completed_downloads_path := "/dl", library_base_path := "/lib",
    calibre_ebook_convert_path := "" }

def fsIdem : Fs := ⟨[("/lib", .dir), ("/dl/book.epub", .file "X")]⟩

def dbIdem : Db :=
  { medias := [mediaIdem], attempts := [attemptIdem], blacklist := [], configs := [],
    pconfigs := [cfgIdem], nextAttemptId := 2 }

/-- Closed instance of the amended C8. -/
theorem organize_for_attempt_idempotent_witness :
    ∃ db₁ fs₁ fs₂,
      organize_to_library_for_attempt envIdem dbIdem fsIdem 1 =
        (db₁, fs₁, ServiceResult.success ("Successfully organized to library: " ++
          orgDest cfgIdem mediaIdem (pathSuffix attemptIdem.raw_file_path))) ∧
      organize_to_library_for_attempt envIdem db₁ fs₁ 1 =
        (db₁, fs₂, ServiceResult.success ("Successfully organized to library: " ++
          orgDest cfgIdem mediaIdem (pathSuffix attemptIdem.raw_file_path))) ∧
      ∀ p, fs₂.existsPath p = fs₁.existsPath p :=
  organize_for_attempt_idempotent envIdem dbIdem fsIdem 1 attemptIdem mediaIdem cfgIdem "X"
    rfl rfl rfl rfl (by decide) rfl rfl (by decide) (by decide) (by decide)
    (fun _ => rfl) (fun _ => rfl)

end OmniReadarr
